import Mathlib

/-!
Shallow embedding of the esplugin core (`src/plugin.rs`) together with the
parts of the record-identity model that `plugin.rs` depends on.  The types
`GameId`, `ObjectIndexMask`, `SourcePlugin`, `NamespacedId`,
`ResolvedRecordId`, `Record`, `Subrecord` and the byte-level readers live in
repository modules that are not present under `src/`; they are modelled from
the specification (each such definition carries a doc comment starting with
`Modelled from the spec:`).  Everything else is translated directly from
`src/src/plugin.rs`.

Machine integers (`u32` form ids, header flags, masks) are modelled as `Nat`,
with an explicit `% 2^32` wherever the source's `u32` arithmetic can wrap:
the Starfield mod-index counters wrap after 256 full-scale, 768 medium-scale
or 8192 small-scale masters, and the embedding applies the wrap at each
increment; the layout theorem bounds the scale counts strictly below these
thresholds, where wrapping (release builds) and panicking (debug builds)
are both unreachable.
-/

/-- Decidable equality of `Except` values, needed to evaluate the concrete
witnesses and counterexamples by `decide`. -/
instance exceptDecEq [DecidableEq ε] [DecidableEq α] :
    DecidableEq (Except ε α) := fun a b =>
  match a, b with
  | .error e, .error e' =>
    if h : e = e' then .isTrue (by rw [h]) else .isFalse (by simp [h])
  | .ok v, .ok v' =>
    if h : v = v' then .isTrue (by rw [h]) else .isFalse (by simp [h])
  | .error _, .ok _ => .isFalse (by simp)
  | .ok _, .error _ => .isFalse (by simp)

namespace Esplugin

/-- Total comparison on `Nat` producing an `Ordering`, used as the base of
the comparators for record identities. -/
def natCmp (a b : Nat) : Ordering :=
  if a < b then .lt else if b < a then .gt else .eq

/-- Lexicographic comparison of lists from an element comparator. -/
def listCmp (cmp : α → α → Ordering) : List α → List α → Ordering
  | [], [] => .eq
  | [], _ :: _ => .lt
  | _ :: _, [] => .gt
  | a :: l, b :: r =>
    match cmp a b with
    | .eq => listCmp cmp l r
    | o => o

/-- Comparison of characters by code point. -/
def charCmp (a b : Char) : Ordering :=
  natCmp a.toNat b.toNat

/-- Lexicographic comparison of strings by code points. -/
def strCmp (a b : String) : Ordering :=
  listCmp charCmp a.data b.data

/-- ASCII lower-casing of a single character, mirroring Rust's
`u8::to_ascii_lowercase` as used by `eq_ignore_ascii_case`. -/
def asciiLower (c : Char) : Char :=
  if 'A' ≤ c ∧ c ≤ 'Z' then Char.ofNat (c.toNat + 32) else c

/-- Modelled from the spec: plugin-name comparisons use Unicode simple case
folding (the `unicase` crate); the model folds with ASCII lower-casing, which
agrees with simple case folding on all names appearing in the claims. -/
def foldName (s : String) : String :=
  String.mk (s.data.map asciiLower)

/-- Modelled from the spec: `unicase::eq`, the case-insensitive string
equality used for master lookups. -/
def unicaseEq (a b : String) : Bool :=
  foldName a = foldName b

/-- Rust's `eq_ignore_ascii_case` on byte strings, here on character lists. -/
def eqIgnoreAsciiCase (a b : List Char) : Bool :=
  a.map asciiLower = b.map asciiLower

/-- Modelled from the spec: the closed enumeration of supported games
(`game_id.rs` is not under `src/`). -/
inductive GameId
  | Morrowind
  | Oblivion
  | Fallout3
  | FalloutNV
  | Fallout4
  | Skyrim
  | SkyrimSE
  | Starfield
deriving DecidableEq

/-- Modelled from the spec: games that support light plugins are Fallout 4,
Skyrim SE and Starfield. -/
def GameId.supports_light_plugins : GameId → Bool
  | .Fallout4 | .SkyrimSE | .Starfield => true
  | _ => false

/-- Modelled from the spec: only Starfield supports medium plugins. -/
def GameId.supports_medium_plugins : GameId → Bool
  | .Starfield => true
  | _ => false

/-- Plugin scale, derived from header flags (source `plugin.rs`). -/
inductive PluginScale
  | Full
  | Medium
  | Small
deriving DecidableEq

/-- File-extension classification from `plugin.rs`. -/
inductive FileExtension
  | Esm
  | Esl
  | Ghost
  | Unrecognised
deriving DecidableEq

/-- `FileExtension::from(&OsStr)` from `plugin.rs`: case-insensitive (ASCII)
match against `esm`, `esl`, `ghost`. -/
def FileExtension.ofChars (e : List Char) : FileExtension :=
  if eqIgnoreAsciiCase e "esm".data then .Esm
  else if eqIgnoreAsciiCase e "esl".data then .Esl
  else if eqIgnoreAsciiCase e "ghost".data then .Ghost
  else .Unrecognised

/-- Modelled from the spec: the three object-index masks; selects the low
bits of a raw 32-bit form id that encode the object index. -/
inductive ObjectIndexMask
  | Full
  | Medium
  | Small
deriving DecidableEq

/-- Numeric value of an object-index mask
(`Full = 0x00FF_FFFF`, `Medium = 0x0000_FFFF`, `Small = 0x0000_0FFF`). -/
def ObjectIndexMask.toNat : ObjectIndexMask → Nat
  | .Full => 0xFFFFFF
  | .Medium => 0xFFFF
  | .Small => 0xFFF

/-- Modelled from the spec: a Morrowind record identity, a 4-byte record tag
plus the record's editor id, case-folded at construction time. -/
structure NamespacedId where
  record_tag : List Nat
  editor_id : String
deriving DecidableEq

/-- Ordering of namespaced ids: by tag bytes, then by the (already folded)
editor id. -/
def nsCmp (a b : NamespacedId) : Ordering :=
  match listCmp natCmp a.record_tag b.record_tag with
  | .eq => strCmp a.editor_id b.editor_id
  | o => o

/-- Modelled from the spec: a source plugin as seen by form-id resolution:
either the parent plugin itself or one of its masters.  The name is stored
case-folded so that comparisons are case-insensitive. -/
structure SourcePlugin where
  name : String
  mod_index_mask : Nat
  object_index_mask : ObjectIndexMask
deriving DecidableEq

/-- Modelled from the spec: `SourcePlugin::parent` has a zero mod-index
mask. -/
def SourcePlugin.parent (name : String) (mask : ObjectIndexMask) : SourcePlugin :=
  { name := foldName name, mod_index_mask := 0, object_index_mask := mask }

/-- Modelled from the spec: `SourcePlugin::master`. -/
def SourcePlugin.master (name : String) (modIndexMask : Nat)
    (mask : ObjectIndexMask) : SourcePlugin :=
  { name := foldName name, mod_index_mask := modIndexMask, object_index_mask := mask }

/-- Modelled from the spec: a comparable, sortable record identity.  A
non-Morrowind identity is the case-folded source-plugin name plus the object
index; a Morrowind identity keeps the namespaced id itself (the resolver in
`plugin.rs` supplies only the union set of all masters' ids, so the owning
master is not recoverable).  The override flag is carried alongside and is
ignored by comparison. -/
inductive ResolvedRecordId
  | formId (source : String) (objectIndex : Nat) (isOverride : Bool)
  | namespaced (id : NamespacedId) (isOverride : Bool)
deriving DecidableEq

/-- Ordering of resolved record ids: by (source-plugin-name, object-index)
for form ids, by the namespaced id for Morrowind ids; the override flag is
ignored, so two plugins overriding the same master record compare equal. -/
def rridCmp (a b : ResolvedRecordId) : Ordering :=
  match a, b with
  | .formId sa oa _, .formId sb ob _ =>
    match strCmp sa sb with
    | .eq => natCmp oa ob
    | o => o
  | .formId _ _ _, .namespaced _ _ => .lt
  | .namespaced _ _, .formId _ _ _ => .gt
  | .namespaced ia _, .namespaced ib _ => nsCmp ia ib

/-- Override flag of a resolved record id
(`ResolvedRecordId::is_overridden_record`). -/
def ResolvedRecordId.is_overridden_record : ResolvedRecordId → Bool
  | .formId _ _ o => o
  | .namespaced _ o => o

/-- Modelled from the spec: `ResolvedRecordId::from_form_id`.  The parent's
object-index mask splits the raw id into mod index and object index; a mod
index equal to some master's mask makes the record an override belonging to
that master, otherwise it is a new record of the parent. -/
def ResolvedRecordId.from_form_id (parent : SourcePlugin)
    (masters : List SourcePlugin) (raw : Nat) : ResolvedRecordId :=
  let mask := parent.object_index_mask.toNat
  let mi := raw &&& (0xFFFFFFFF ^^^ mask)
  let oi := raw &&& mask
  match masters.find? (fun m => m.mod_index_mask = mi) with
  | some m => .formId m.name (oi &&& m.object_index_mask.toNat) true
  | none => .formId parent.name oi false

/-- Modelled from the spec: `ResolvedRecordId::from_namespaced_id`; an id
found in the union of the masters' id sets is an override. -/
def ResolvedRecordId.from_namespaced_id (id : NamespacedId)
    (masterIds : List NamespacedId) : ResolvedRecordId :=
  .namespaced id (masterIds.contains id)

/-- Modelled from the spec: the error taxonomy of the library
(`error.rs` is not under `src/`).  Parsing-error content bytes are kept as
`List Nat`. -/
inductive ParsingErrorKind
  | UnexpectedRecordType (expected : List Nat)
  | UnexpectedSubrecordType (expected : List Nat)
  | SubrecordDataTooShort (required : Nat)
  | UnexpectedEndOfStream
  | DecompressionFailed
  | GroupMalformed
deriving DecidableEq

/-- Modelled from the spec: the library's error type. -/
inductive Error
  | IoError
  | ParsingError (content : List Nat) (kind : ParsingErrorKind)
  | DecodeError (bytes : List Nat)
  | NoFilename (path : String)
  | UnresolvedRecordIds (path : String)
  | PluginMetadataNotFound (name : String)
deriving DecidableEq

/-- Little-endian composition of a byte list into a natural number. -/
def leNat (bs : List Nat) : Nat :=
  bs.foldr (fun b acc => b % 256 + 256 * acc) 0

/-- `until_first_null` from `plugin.rs`: the slice up to, not including, the
first zero byte, or the whole slice if there is none. -/
def until_first_null (bytes : List Nat) : List Nat :=
  bytes.takeWhile (· ≠ 0)

/-- Modelled from the spec: strict Windows-1252 decoding of a single byte.
Bytes 0x00-0x7F and 0xA0-0xFF map to the same code point; 0x80-0x9F use the
Windows-1252 table; the five unassigned bytes have no mapping. -/
def win1252Char (b : Nat) : Option Char :=
  if b < 0x80 then some (Char.ofNat b)
  else if 0xA0 ≤ b ∧ b ≤ 0xFF then some (Char.ofNat b)
  else match b with
  | 0x80 => some (Char.ofNat 0x20AC)
  | 0x82 => some (Char.ofNat 0x201A)
  | 0x83 => some (Char.ofNat 0x0192)
  | 0x84 => some (Char.ofNat 0x201E)
  | 0x85 => some (Char.ofNat 0x2026)
  | 0x86 => some (Char.ofNat 0x2020)
  | 0x87 => some (Char.ofNat 0x2021)
  | 0x88 => some (Char.ofNat 0x02C6)
  | 0x89 => some (Char.ofNat 0x2030)
  | 0x8A => some (Char.ofNat 0x0160)
  | 0x8B => some (Char.ofNat 0x2039)
  | 0x8C => some (Char.ofNat 0x0152)
  | 0x8E => some (Char.ofNat 0x017D)
  | 0x91 => some (Char.ofNat 0x2018)
  | 0x92 => some (Char.ofNat 0x2019)
  | 0x93 => some (Char.ofNat 0x201C)
  | 0x94 => some (Char.ofNat 0x201D)
  | 0x95 => some (Char.ofNat 0x2022)
  | 0x96 => some (Char.ofNat 0x2013)
  | 0x97 => some (Char.ofNat 0x2014)
  | 0x98 => some (Char.ofNat 0x02DC)
  | 0x99 => some (Char.ofNat 0x2122)
  | 0x9A => some (Char.ofNat 0x0161)
  | 0x9B => some (Char.ofNat 0x203A)
  | 0x9C => some (Char.ofNat 0x0153)
  | 0x9E => some (Char.ofNat 0x017E)
  | 0x9F => some (Char.ofNat 0x0178)
  | _ => none

/-- Modelled from the spec: strict Windows-1252 decoding of a byte string
(`decode_without_bom_handling_and_without_replacement`); any unassigned byte
makes the whole decode fail. -/
def win1252Decode (bytes : List Nat) : Option String :=
  (bytes.mapM win1252Char).map String.mk

/-- Modelled from the spec: splitting a file name at its final dot, following
Rust's `Path` rules: the name `..` never splits, and a leading dot is not a
split point (the last dot is searched for from the second character on). -/
def revFindDot : List Char → Option (List Char × List Char)
  | [] => none
  | c :: rest =>
    if c = '.' then some ([], rest)
    else (revFindDot rest).map (fun p => (c :: p.1, p.2))

/-- Modelled from the spec: Rust's `split_file_at_dot`, returning the file
stem and the optional extension of a file name. -/
def splitFileAtDot (name : List Char) : List Char × Option (List Char) :=
  if name = ['.', '.'] then (name, none)
  else match name with
  | [] => ([], none)
  | c0 :: rest =>
    match revFindDot rest.reverse with
    | none => (name, none)
    | some (revExt, revPre) => (c0 :: revPre.reverse, some revExt.reverse)

/-- Modelled from the spec: splitting a path string on `/`. -/
def splitSlash : List Char → List (List Char)
  | [] => [[]]
  | c :: rest =>
    if c = '/' then [] :: splitSlash rest
    else match splitSlash rest with
    | [] => [[c]]
    | comp :: comps => (c :: comp) :: comps

/-- Modelled from the spec: Rust's `Path::file_name`: the last normal
component of the path (empty and `.` components are skipped, a final `..`
yields nothing). -/
def pathFileNameCh (p : List Char) : Option (List Char) :=
  let comps := (splitSlash p).filter (fun c => c ≠ [] ∧ c ≠ ['.'])
  match comps.getLast? with
  | none => none
  | some c => if c = ['.', '.'] then none else some c

/-- Modelled from the spec: Rust's `Path::extension`. -/
def pathExtCh (p : List Char) : Option (List Char) :=
  (pathFileNameCh p).bind (fun n => (splitFileAtDot n).2)

/-- Modelled from the spec: Rust's `Path::file_stem`. -/
def pathStemCh (p : List Char) : Option (List Char) :=
  (pathFileNameCh p).map (fun n => (splitFileAtDot n).1)

/-- Modelled from the spec: a subrecord, a 4-byte tag plus payload bytes. -/
structure Subrecord where
  subrecord_type : List Nat
  data : List Nat
deriving DecidableEq

/-- Modelled from the spec: a record: 4-byte tag, header flags, form id
(0 for Morrowind) and subrecords.  The default value mirrors Rust's derived
`Default` (zero tag, zero flags, no subrecords). -/
structure Record where
  tag : List Nat
  flags : Nat
  form_id : Nat
  subrecords : List Subrecord
deriving DecidableEq

/-- Default record value (all fields zeroed), as produced by
`Record::default()`. -/
def Record.default : Record :=
  { tag := [0, 0, 0, 0], flags := 0, form_id := 0, subrecords := [] }

instance : Inhabited Record := ⟨Record.default⟩

/-- Record-id progression states from `plugin.rs` (`enum RecordIds`). -/
inductive RecordIds
  | None
  | FormIds (ids : List Nat)
  | NamespacedIds (ids : List NamespacedId)
  | Resolved (ids : List ResolvedRecordId)
deriving DecidableEq

/-- Parsed plugin data from `plugin.rs` (`struct PluginData`); the default is
a default header record with no record ids. -/
structure PluginData where
  header_record : Record
  record_ids : RecordIds
deriving DecidableEq

/-- Default plugin data, mirroring the derived `Default` in `plugin.rs`. -/
def PluginData.default : PluginData :=
  { header_record := Record.default, record_ids := .None }

instance : Inhabited PluginData := ⟨PluginData.default⟩

/-- A plugin from `plugin.rs`: game, path (modelled as a string) and parsed
data. -/
structure Plugin where
  game_id : GameId
  path : String
  data : PluginData
deriving DecidableEq

/-- Parse options from `plugin.rs`. -/
structure ParseOptions where
  header_only : Bool
deriving DecidableEq

/-- `ParseOptions::header_only()`. -/
def ParseOptions.headerOnly : ParseOptions := ⟨true⟩

/-- `ParseOptions::whole_plugin()`. -/
def ParseOptions.wholePlugin : ParseOptions := ⟨false⟩

/-- Plugin metadata from `plugin.rs` (`struct PluginMetadata`). -/
structure PluginMetadata where
  filename : String
  scale : PluginScale
  record_ids : List NamespacedId
deriving DecidableEq

/-- `Plugin::new`: a fresh plugin holds default data. -/
def Plugin.new (game : GameId) (filepath : String) : Plugin :=
  { game_id := game, path := filepath, data := PluginData.default }

/-- `Plugin::filename`: the final path component, as a string. -/
def Plugin.filename (p : Plugin) : Option String :=
  (pathFileNameCh p.path.data).map String.mk

/-- `Plugin::file_extension` from `plugin.rs`: classify the path's extension;
the `Ghost` case is peeled once by re-examining the file stem's extension. -/
def Plugin.file_extension (p : Plugin) : FileExtension :=
  match pathExtCh p.path.data with
  | none => .Unrecognised
  | some e =>
    match FileExtension.ofChars e with
    | .Ghost =>
      match pathStemCh p.path.data with
      | none => .Unrecognised
      | some stem =>
        match pathExtCh stem with
        | none => .Unrecognised
        | some e2 => FileExtension.ofChars e2
    | fe => fe

/-- `Plugin::is_master_flag_set`: for Morrowind bit 0 of `HEDR` byte 4,
otherwise bit 0 of the header record flags. -/
def Plugin.is_master_flag_set (p : Plugin) : Bool :=
  match p.game_id with
  | .Morrowind =>
    match (p.data.header_record.subrecords.find?
        (fun s => s.subrecord_type = [0x48, 0x45, 0x44, 0x52])).bind
        (fun s => s.data.get? 4) with
    | some b => b &&& 1 ≠ 0
    | none => false
  | _ => p.data.header_record.flags &&& 1 ≠ 0

/-- `Plugin::is_light_flag_set`: flag 0x100 on Starfield, 0x200 on
Skyrim SE and Fallout 4, absent otherwise. -/
def Plugin.is_light_flag_set (p : Plugin) : Bool :=
  match p.game_id with
  | .Starfield => p.data.header_record.flags &&& 0x100 ≠ 0
  | .SkyrimSE | .Fallout4 => p.data.header_record.flags &&& 0x200 ≠ 0
  | _ => false

/-- `Plugin::is_medium_flag_set`: flag 0x400 on Starfield only. -/
def Plugin.is_medium_flag_set (p : Plugin) : Bool :=
  match p.game_id with
  | .Starfield => p.data.header_record.flags &&& 0x400 ≠ 0
  | _ => false

/-- `Plugin::is_update_flag_set`: flag 0x200 on Starfield only. -/
def Plugin.is_update_flag_set (p : Plugin) : Bool :=
  match p.game_id with
  | .Starfield => p.data.header_record.flags &&& 0x200 ≠ 0
  | _ => false

/-- `Plugin::is_light_plugin` from `plugin.rs`: on Starfield the `.esl`
extension forces light only while the update flag is clear; on Skyrim SE and
Fallout 4 it always does. -/
def Plugin.is_light_plugin (p : Plugin) : Bool :=
  if p.game_id.supports_light_plugins then
    if p.game_id = .Starfield then
      p.is_light_flag_set || (!p.is_update_flag_set && p.file_extension = .Esl)
    else
      p.is_light_flag_set || p.file_extension = .Esl
  else false

/-- `Plugin::is_master_file` from `plugin.rs`. -/
def Plugin.is_master_file (p : Plugin) : Bool :=
  match p.game_id with
  | .Fallout4 | .SkyrimSE | .Starfield =>
    p.is_master_flag_set ||
      (p.file_extension = .Esm || p.file_extension = .Esl)
  | _ => p.is_master_flag_set

/-- `Plugin::scale` from `plugin.rs`. -/
def Plugin.scale (p : Plugin) : PluginScale :=
  if p.is_light_plugin then .Small
  else if p.is_medium_flag_set then .Medium
  else .Full

/-- `masters` from `plugin.rs`: decode every `MAST` subrecord of the header
record, trimmed at the first NUL, as Windows-1252; the first undecodable
name fails the whole call. -/
def mastersOf (header : Record) : Except Error (List String) :=
  (header.subrecords.filter
      (fun s => s.subrecord_type = [0x4D, 0x41, 0x53, 0x54])).mapM
    (fun s =>
      let d := until_first_null s.data
      match win1252Decode d with
      | some name => .ok name
      | none => .error (.DecodeError d))

/-- `Plugin::masters`. -/
def Plugin.masters (p : Plugin) : Except Error (List String) :=
  mastersOf p.data.header_record

/-- Stable insertion of an element into a list under a strict-less test: the
element is placed before the first entry it is strictly less than. -/
def insertBy (lt : α → α → Bool) (x : α) : List α → List α
  | [] => [x]
  | y :: ys => if lt x y then x :: y :: ys else y :: insertBy lt x ys

/-- Stable sort under a comparator; extensionally equal to Rust's stable
`sort` for the total orders used here. -/
def sortByCmp (cmp : α → α → Ordering) : List α → List α
  | [] => []
  | x :: xs => insertBy (fun a b => cmp a b = .lt) x (sortByCmp cmp xs)

/-- `sorted_slices_intersect` from `plugin.rs`: a two-pointer merge walk that
advances the smaller side and reports an intersection on the first equal
pair. -/
def sorted_slices_intersect (cmp : α → α → Ordering) : List α → List α → Bool
  | [], _ => false
  | _ :: _, [] => false
  | a :: l, b :: r =>
    match cmp a b with
    | .lt => sorted_slices_intersect cmp l (b :: r)
    | .gt => sorted_slices_intersect cmp (a :: l) r
    | .eq => true
termination_by l r => l.length + r.length

/-- Rust's `slice::binary_search` loop on a sub-range `[left, right)`:
halving search that returns whether an element comparing equal to the key
was found.  The extra fuel argument makes the recursion structural; the
search span `right - left` shrinks by at least one per step, so a fuel of
`right - left + 1` can never run out. -/
def binarySearchGo (cmp : α → α → Ordering) (xs : List α) (key : α) :
    Nat → Nat → Nat → Bool
  | 0, _, _ => false
  | fuel + 1, left, right =>
    if left < right then
      let mid := left + (right - left) / 2
      match xs.get? mid with
      | none => false
      | some x =>
        match cmp x key with
        | .lt => binarySearchGo cmp xs key fuel (mid + 1) right
        | .gt => binarySearchGo cmp xs key fuel left mid
        | .eq => true
    else false

/-- Rust's `slice::binary_search(&id).is_ok()` over a full list. -/
def binarySearch (cmp : α → α → Ordering) (xs : List α) (key : α) : Bool :=
  binarySearchGo cmp xs key (xs.length + 1) 0 xs.length

/-- `hashed_parent` from `plugin.rs`: for Starfield the parent uses the
object-index mask of its own scale, for all other games the full mask. -/
def hashed_parent (game : GameId) (parentMeta : PluginMetadata) : SourcePlugin :=
  match game with
  | .Starfield =>
    let mask := match parentMeta.scale with
      | .Full => ObjectIndexMask.Full
      | .Medium => ObjectIndexMask.Medium
      | .Small => ObjectIndexMask.Small
    SourcePlugin.parent parentMeta.filename mask
  | _ => SourcePlugin.parent parentMeta.filename ObjectIndexMask.Full

/-- `hashed_masters` from `plugin.rs`: each master at 0-based position `i`
receives mod-index mask `i <<< 24` and the full object-index mask; positions
that do not fit in a `u8` (greater than 255) are silently skipped. -/
def hashed_masters (masters : List String) : List SourcePlugin :=
  masters.enum.filterMap (fun im =>
    if im.1 < 256 then
      some (SourcePlugin.master im.2 (im.1 <<< 24) ObjectIndexMask.Full)
    else none)

/-- Scale lookup used by the Starfield master layout: the first metadata
entry whose filename matches case-insensitively. -/
def lookupScale (metadata : List PluginMetadata) (master : String) :
    Option PluginScale :=
  (metadata.find? (fun m => unicaseEq m.filename master)).map (·.scale)

/-- Loop of `hashed_masters_for_starfield` from `plugin.rs`, carrying the
three parallel `u32` mod-index counters.  Each increment wraps modulo
`2^32 = 4294967296`, the behaviour of the source's `u32` addition in a
release build (a debug build panics at the very increment that would wrap;
below the bounds used in the layout theorem neither happens and the wrap is
the identity). -/
def starfieldMastersGo (metadata : List PluginMetadata) :
    List String → Nat → Nat → Nat → Except Error (List SourcePlugin)
  | [], _, _, _ => .ok []
  | m :: rest, fullMask, mediumMask, smallMask =>
    match lookupScale metadata m with
    | none => .error (.PluginMetadataNotFound m)
    | some .Full =>
      (starfieldMastersGo metadata rest ((fullMask + 0x1000000) % 4294967296)
          mediumMask smallMask).map
        (SourcePlugin.master m fullMask ObjectIndexMask.Full :: ·)
    | some .Medium =>
      (starfieldMastersGo metadata rest fullMask
          ((mediumMask + 0x10000) % 4294967296) smallMask).map
        (SourcePlugin.master m mediumMask ObjectIndexMask.Medium :: ·)
    | some .Small =>
      (starfieldMastersGo metadata rest fullMask mediumMask
          ((smallMask + 0x1000) % 4294967296)).map
        (SourcePlugin.master m smallMask ObjectIndexMask.Small :: ·)

/-- `hashed_masters_for_starfield` from `plugin.rs`: lays out the master
mod-index space with three parallel counters starting at
`full = 0x0000_0000`, `medium = 0xFD00_0000`, `small = 0xFE00_0000`;
a master without metadata fails with `PluginMetadataNotFound`. -/
def hashed_masters_for_starfield (masters : List String)
    (metadata : List PluginMetadata) : Except Error (List SourcePlugin) :=
  starfieldMastersGo metadata masters 0 0xFD000000 0xFE000000

/-- `resolve_form_ids` from `plugin.rs`. -/
def resolve_form_ids (game : GameId) (formIds : List Nat)
    (parentMeta : PluginMetadata) (masters : List String)
    (othersMeta : List PluginMetadata) :
    Except Error (List ResolvedRecordId) :=
  let hp := hashed_parent game parentMeta
  let hms : Except Error (List SourcePlugin) :=
    match game with
    | .Starfield => hashed_masters_for_starfield masters othersMeta
    | _ => .ok (hashed_masters masters)
  match hms with
  | .error e => .error e
  | .ok hms =>
    .ok (sortByCmp rridCmp
      (formIds.map (fun f => ResolvedRecordId.from_form_id hp hms f)))

/-- Union of the masters' namespaced-id lists, failing with
`PluginMetadataNotFound` for a master missing from the metadata (the
gathering loop of `resolve_namespaced_ids` in `plugin.rs`). -/
def gatherMasterIds (masters : List String)
    (othersMeta : List PluginMetadata) : Except Error (List NamespacedId) :=
  match masters with
  | [] => .ok []
  | m :: rest =>
    match othersMeta.find? (fun x => unicaseEq x.filename m) with
    | none => .error (.PluginMetadataNotFound m)
    | some meta =>
      (gatherMasterIds rest othersMeta).map (meta.record_ids ++ ·)

/-- `resolve_namespaced_ids` from `plugin.rs`. -/
def resolve_namespaced_ids (namespacedIds : List NamespacedId)
    (masters : List String) (othersMeta : List PluginMetadata) :
    Except Error (List ResolvedRecordId) :=
  (gatherMasterIds masters othersMeta).map (fun masterIds =>
    sortByCmp rridCmp
      (namespacedIds.map
        (fun id => ResolvedRecordId.from_namespaced_id id masterIds)))

/-- `Plugin::resolve_record_ids` from `plugin.rs`: `FormIds` and
`NamespacedIds` move to `Resolved`; `None` and `Resolved` are left
untouched.  The Rust method mutates `self`; the model returns the updated
plugin (on an error the plugin is unchanged, matching the Rust code whose
only mutation is the final assignment of each branch). -/
def Plugin.resolve_record_ids (p : Plugin)
    (pluginsMetadata : List PluginMetadata) : Except Error Plugin :=
  match p.data.record_ids with
  | .FormIds formIds =>
    match p.filename with
    | none => .error (.NoFilename p.path)
    | some filename =>
      let parentMeta : PluginMetadata :=
        { filename := filename, scale := p.scale, record_ids := [] }
      match p.masters with
      | .error e => .error e
      | .ok masters =>
        match resolve_form_ids p.game_id formIds parentMeta masters
            pluginsMetadata with
        | .error e => .error e
        | .ok resolved =>
          .ok { p with data := { p.data with record_ids := .Resolved resolved } }
  | .NamespacedIds namespacedIds =>
    match p.masters with
    | .error e => .error e
    | .ok masters =>
      match resolve_namespaced_ids namespacedIds masters pluginsMetadata with
      | .error e => .error e
      | .ok resolved =>
        .ok { p with data := { p.data with record_ids := .Resolved resolved } }
  | .None | .Resolved _ => .ok p

/-- `Plugin::overlaps_with` from `plugin.rs`. -/
def Plugin.overlaps_with (p other : Plugin) : Except Error Bool :=
  match p.data.record_ids, other.data.record_ids with
  | .FormIds _, _ => .error (.UnresolvedRecordIds p.path)
  | _, .FormIds _ => .error (.UnresolvedRecordIds other.path)
  | .Resolved left, .Resolved right =>
    .ok (sorted_slices_intersect rridCmp left right)
  | .NamespacedIds left, .NamespacedIds right =>
    .ok (sorted_slices_intersect nsCmp left right)
  | _, _ => .ok false

/-- Inner loop of `Plugin::overlap_size` for a resolved id: scan the others
in order; a `FormIds` other is an error, a `Resolved` other containing the id
stops the scan with a match, anything else is skipped. -/
def scanOthers (id : ResolvedRecordId) : List Plugin → Except Error Bool
  | [] => .ok false
  | o :: rest =>
    match o.data.record_ids with
    | .FormIds _ => .error (.UnresolvedRecordIds o.path)
    | .Resolved masterIds =>
      if binarySearch rridCmp masterIds id then .ok true
      else scanOthers id rest
    | _ => scanOthers id rest

/-- Outer loop of `Plugin::overlap_size` over this plugin's resolved ids,
accumulating the count of matched ids. -/
def overlapLoop (others : List Plugin) :
    List ResolvedRecordId → Nat → Except Error Nat
  | [], count => .ok count
  | id :: rest, count =>
    match scanOthers id others with
    | .error e => .error e
    | .ok true => overlapLoop others rest (count + 1)
    | .ok false => overlapLoop others rest count

/-- `Plugin::overlap_size` from `plugin.rs`. -/
def Plugin.overlap_size (p : Plugin) (others : List Plugin) :
    Except Error Nat :=
  match p.data.record_ids with
  | .FormIds _ => .error (.UnresolvedRecordIds p.path)
  | .Resolved ids => overlapLoop others ids 0
  | .NamespacedIds ids =>
    .ok ((ids.filter (fun id =>
      others.any (fun o =>
        match o.data.record_ids with
        | .NamespacedIds masterIds => binarySearch nsCmp masterIds id
        | _ => false))).length)
  | .None => .ok 0

/-- Modelled from the spec: the non-Morrowind subrecord reader
(`tag[4] size[u16] data[size]`), with the large-subrecord escape: after a
subrecord tagged `XXXX` whose 4-byte payload holds the true 32-bit size, the
next subrecord's own size field is read and ignored.  The `XXXX` subrecord is
kept in the list; a truncated stream is an end-of-stream parsing error. -/
def readSubrecordsNMGo (fuel : Nat) (body : List Nat) (largeSize : Option Nat) :
    Except Error (List Subrecord) :=
  match fuel with
  | 0 => .error (.ParsingError body .UnexpectedEndOfStream)
  | fuel + 1 =>
    if body.length = 0 then .ok []
    else if body.length < 6 then
      .error (.ParsingError body .UnexpectedEndOfStream)
    else
      let tag := body.take 4
      let szField := leNat ((body.drop 4).take 2)
      let actual := largeSize.getD szField
      if body.length < 6 + actual then
        .error (.ParsingError body .UnexpectedEndOfStream)
      else
        let data := (body.drop 6).take actual
        let rest := (body.drop 6).drop actual
        let nextLarge : Except Error (Option Nat) :=
          if tag = [88, 88, 88, 88] then
            if data.length < 4 then
              .error (.ParsingError data (.SubrecordDataTooShort 4))
            else .ok (some (leNat data))
          else .ok none
        match nextLarge with
        | .error e => .error e
        | .ok nl =>
          (readSubrecordsNMGo fuel rest nl).map
            ({ subrecord_type := tag, data := data } :: ·)

/-- Wrapper supplying enough fuel for `readSubrecordsNMGo`: each step
consumes at least 6 bytes, so `body.length + 1` steps always terminate the
loop before the fuel does. -/
def readSubrecordsNM (body : List Nat) (largeSize : Option Nat) :
    Except Error (List Subrecord) :=
  readSubrecordsNMGo (body.length + 1) body largeSize

/-- Modelled from the spec: the Morrowind subrecord reader
(`tag[4] size[u32] data[size]`, no escape).  Fuelled structural recursion;
each step consumes at least 8 bytes. -/
def readSubrecordsMWGo (fuel : Nat) (body : List Nat) :
    Except Error (List Subrecord) :=
  match fuel with
  | 0 => .error (.ParsingError body .UnexpectedEndOfStream)
  | fuel + 1 =>
    if body.length = 0 then .ok []
    else if body.length < 8 then
      .error (.ParsingError body .UnexpectedEndOfStream)
    else
      let tag := body.take 4
      let size := leNat ((body.drop 4).take 4)
      if body.length < 8 + size then
        .error (.ParsingError body .UnexpectedEndOfStream)
      else
        let data := (body.drop 8).take size
        let rest := (body.drop 8).drop size
        (readSubrecordsMWGo fuel rest).map
          ({ subrecord_type := tag, data := data } :: ·)

/-- Wrapper supplying enough fuel for `readSubrecordsMWGo`. -/
def readSubrecordsMW (body : List Nat) : Except Error (List Subrecord) :=
  readSubrecordsMWGo (body.length + 1) body

/-- Modelled from the spec: `Record::read`.  The header is 24 bytes on
non-Morrowind games (`tag, size, flags, form_id, timestamp, internal`) and
16 bytes on Morrowind (`tag, size, pad, flags`; the form id is 0); a tag
other than the expected one is an `UnexpectedRecordType` parsing error; the
payload of `size` bytes holds the subrecords.  Transparent zlib
decompression of records flagged `0x0004_0000` is not modelled; the model
rejects such a payload with a `DecompressionFailed` parsing error. -/
def Record.read (game : GameId) (expected : List Nat) (bytes : List Nat) :
    Except Error (Record × List Nat) :=
  let headerSize := if game = .Morrowind then 16 else 24
  if bytes.length < headerSize then
    .error (.ParsingError bytes .UnexpectedEndOfStream)
  else
    let tag := bytes.take 4
    if tag ≠ expected then
      .error (.ParsingError tag (.UnexpectedRecordType expected))
    else
      let size := leNat ((bytes.drop 4).take 4)
      let flags :=
        if game = .Morrowind then leNat ((bytes.drop 12).take 4)
        else leNat ((bytes.drop 8).take 4)
      let formId :=
        if game = .Morrowind then 0 else leNat ((bytes.drop 12).take 4)
      if bytes.length < headerSize + size then
        .error (.ParsingError bytes .UnexpectedEndOfStream)
      else
        let body := (bytes.drop headerSize).take size
        let rest := (bytes.drop headerSize).drop size
        if game ≠ .Morrowind ∧ flags &&& 0x40000 ≠ 0 then
          .error (.ParsingError body .DecompressionFailed)
        else
          match (if game = .Morrowind then readSubrecordsMW body
                 else readSubrecordsNM body none) with
          | .error e => .error e
          | .ok subs =>
            .ok ({ tag := tag, flags := flags, form_id := formId,
                   subrecords := subs }, rest)

/-- Modelled from the spec: the group/record walker behind
`read_form_ids` in `plugin.rs` and `Group::read_form_ids`.  Each 4-byte tag
is examined: a `GRUP` has a 24-byte header whose `size` covers the whole
group, and its body (`size - 24` bytes) is walked recursively; anything else
is a record whose form id is taken from its header
(`Record::read_record_id`) and whose payload is skipped.  Truncation is an
end-of-stream parsing error; a group size below 24 is `GroupMalformed`. -/
def walkStreamGo (fuel : Nat) (bytes : List Nat) : Except Error (List Nat) :=
  match fuel with
  | 0 => .error (.ParsingError bytes .UnexpectedEndOfStream)
  | fuel + 1 =>
    if bytes.length = 0 then .ok []
    else if bytes.take 4 = [71, 82, 85, 80] then
      if bytes.length < 24 then
        .error (.ParsingError bytes .UnexpectedEndOfStream)
      else
        let size := leNat ((bytes.drop 4).take 4)
        if size < 24 then .error (.ParsingError bytes .GroupMalformed)
        else if bytes.length < size then
          .error (.ParsingError bytes .UnexpectedEndOfStream)
        else
          let body := (bytes.take size).drop 24
          let rest := bytes.drop size
          match walkStreamGo fuel body with
          | .error e => .error e
          | .ok ids => (walkStreamGo fuel rest).map (ids ++ ·)
    else
      if bytes.length < 24 then
        .error (.ParsingError bytes .UnexpectedEndOfStream)
      else
        let size := leNat ((bytes.drop 4).take 4)
        let formId := leNat ((bytes.drop 12).take 4)
        if bytes.length < 24 + size then
          .error (.ParsingError bytes .UnexpectedEndOfStream)
        else
          (walkStreamGo fuel (bytes.drop (24 + size))).map (formId :: ·)

/-- Wrapper supplying enough fuel for `walkStreamGo`: every recursive call
is on a strictly shorter byte list (a group body or the stream after a
consumed group or record), so `bytes.length + 1` levels suffice. -/
def walkStream (bytes : List Nat) : Except Error (List Nat) :=
  walkStreamGo (bytes.length + 1) bytes

/-- `read_form_ids` from `plugin.rs`: walk the remainder of the stream
collecting raw form ids in stream order. -/
def read_form_ids (bytes : List Nat) : Except Error (List Nat) :=
  walkStream bytes

/-- Modelled from the spec: the loop of `read_morrowind_record_ids` in
`plugin.rs` together with `Record::read_record_id` for Morrowind: each
record's 16-byte header is read, its subrecords are scanned for the editor
id (`NAME` for most records, `INAM` for `INFO` records), and records whose
expected subrecord is absent yield no id.  The editor id is trimmed at the
first NUL, decoded as Windows-1252 and case-folded. -/
def readMorrowindIdsGo (fuel : Nat) (bytes : List Nat) :
    Except Error (List NamespacedId) :=
  match fuel with
  | 0 => .error (.ParsingError bytes .UnexpectedEndOfStream)
  | fuel + 1 =>
    if bytes.length = 0 then .ok []
    else if bytes.length < 16 then
      .error (.ParsingError bytes .UnexpectedEndOfStream)
    else
      let tag := bytes.take 4
      let size := leNat ((bytes.drop 4).take 4)
      if bytes.length < 16 + size then
        .error (.ParsingError bytes .UnexpectedEndOfStream)
      else
        let body := (bytes.drop 16).take size
        let rest := (bytes.drop 16).drop size
        match readSubrecordsMW body with
        | .error e => .error e
        | .ok subs =>
          let target :=
            if tag = [73, 78, 70, 79] then [73, 78, 65, 77]
            else [78, 65, 77, 69]
          match subs.find? (fun s => s.subrecord_type = target) with
          | none => readMorrowindIdsGo fuel rest
          | some s =>
            let d := until_first_null s.data
            match win1252Decode d with
            | none => .error (.DecodeError d)
            | some eid =>
              (readMorrowindIdsGo fuel rest).map
                ({ record_tag := tag, editor_id := foldName eid } :: ·)

/-- `read_morrowind_record_ids` from `plugin.rs`: collect and sort the
namespaced ids (each record consumes at least 16 bytes, so the fuel of
`bytes.length + 1` never runs out). -/
def read_morrowind_record_ids (bytes : List Nat) : Except Error RecordIds :=
  (readMorrowindIdsGo (bytes.length + 1) bytes).map
    (fun ids => .NamespacedIds (sortByCmp nsCmp ids))

/-- `read_record_ids` from `plugin.rs`. -/
def read_record_ids (bytes : List Nat) (game : GameId) :
    Except Error RecordIds :=
  if game = .Morrowind then read_morrowind_record_ids bytes
  else (read_form_ids bytes).map .FormIds

/-- `Plugin::header_type`: `TES3` for Morrowind, `TES4` otherwise. -/
def headerType (game : GameId) : List Nat :=
  if game = .Morrowind then [84, 69, 83, 51] else [84, 69, 83, 52]

/-- `read_plugin` from `plugin.rs`: read the header record with the expected
tag, then either stop (`header_only`, leaving `record_ids = None`) or
collect record ids from the remainder of the stream. -/
def read_plugin (bytes : List Nat) (game : GameId) (options : ParseOptions)
    (expectedHeaderType : List Nat) : Except Error PluginData :=
  match Record.read game expectedHeaderType bytes with
  | .error e => .error e
  | .ok (headerRecord, rest) =>
    if options.header_only then
      .ok { header_record := headerRecord, record_ids := .None }
    else
      match read_record_ids rest game with
      | .error e => .error e
      | .ok rids => .ok { header_record := headerRecord, record_ids := rids }

/-- `Plugin::parse_reader` from `plugin.rs`: read the plugin data, assign it,
and auto-resolve record ids for every game except Morrowind and Starfield.
The Rust method mutates `self` and returns `Result<(), Error>`; the model
returns the plugin state at return time together with the result. -/
def Plugin.parse_reader (p : Plugin) (bytes : List Nat)
    (options : ParseOptions) : Plugin × Except Error Unit :=
  match read_plugin bytes p.game_id options (headerType p.game_id) with
  | .error e => (p, .error e)
  | .ok d =>
    let p1 : Plugin := { p with data := d }
    if p.game_id ≠ .Morrowind ∧ p.game_id ≠ .Starfield then
      match p1.resolve_record_ids [] with
      | .error e => (p1, .error e)
      | .ok p2 => (p2, .ok ())
    else (p1, .ok ())

/-! ## Comparator properties -/

theorem natCmp_swap (a b : Nat) : natCmp a b = (natCmp b a).swap := by
  simp only [natCmp]
  split_ifs <;> first | rfl | omega

theorem natCmp_self (a : Nat) : natCmp a a = .eq := by
  simp [natCmp]

theorem listCmp_swap {cmp : α → α → Ordering}
    (h : ∀ x y, cmp x y = (cmp y x).swap) :
    ∀ l r, listCmp cmp l r = (listCmp cmp r l).swap := by
  intro l
  induction l with
  | nil => intro r; cases r <;> rfl
  | cons a l ih =>
    intro r
    cases r with
    | nil => rfl
    | cons b r' =>
      simp only [listCmp]
      rw [h a b]
      cases hcb : cmp b a <;> simp [Ordering.swap, ih]

theorem listCmp_self {cmp : α → α → Ordering} (h : ∀ x, cmp x x = .eq) :
    ∀ l, listCmp cmp l l = .eq := by
  intro l
  induction l with
  | nil => rfl
  | cons a l ih => simp [listCmp, h a, ih]

theorem charCmp_swap (a b : Char) : charCmp a b = (charCmp b a).swap :=
  natCmp_swap _ _

theorem charCmp_self (a : Char) : charCmp a a = .eq :=
  natCmp_self _

theorem strCmp_swap (a b : String) : strCmp a b = (strCmp b a).swap :=
  listCmp_swap charCmp_swap _ _

theorem strCmp_self (a : String) : strCmp a a = .eq :=
  listCmp_self charCmp_self _

theorem swap_eq_lt {o : Ordering} : o.swap = .lt ↔ o = .gt := by
  cases o <;> decide

theorem swap_eq_gt {o : Ordering} : o.swap = .gt ↔ o = .lt := by
  cases o <;> decide

theorem swap_eq_eq {o : Ordering} : o.swap = .eq ↔ o = .eq := by
  cases o <;> decide

theorem nsCmp_swap (a b : NamespacedId) : nsCmp a b = (nsCmp b a).swap := by
  simp only [nsCmp]
  rw [listCmp_swap natCmp_swap a.record_tag b.record_tag]
  cases listCmp natCmp b.record_tag a.record_tag with
  | lt => rfl
  | eq => exact strCmp_swap _ _
  | gt => rfl

theorem nsCmp_self (a : NamespacedId) : nsCmp a a = .eq := by
  simp [nsCmp, listCmp_self natCmp_self, strCmp_self]

theorem rridCmp_swap (a b : ResolvedRecordId) :
    rridCmp a b = (rridCmp b a).swap := by
  cases a with
  | formId sa oa va =>
    cases b with
    | formId sb ob vb =>
      simp only [rridCmp]
      rw [strCmp_swap sa sb]
      cases strCmp sb sa with
      | lt => rfl
      | eq => exact natCmp_swap _ _
      | gt => rfl
    | namespaced ib vb => rfl
  | namespaced ia va =>
    cases b with
    | formId sb ob vb => rfl
    | namespaced ib vb => exact nsCmp_swap _ _

theorem rridCmp_self (a : ResolvedRecordId) : rridCmp a a = .eq := by
  cases a <;> simp [rridCmp, strCmp_self, natCmp_self, nsCmp_self]

/-! ## Claim C5: overlaps_with is symmetric; reflexivity needs a non-empty
resolved or namespaced list -/

theorem sorted_slices_intersect_swap {cmp : α → α → Ordering}
    (h : ∀ x y, cmp x y = (cmp y x).swap) :
    ∀ l r, sorted_slices_intersect cmp l r = sorted_slices_intersect cmp r l := by
  intro l r
  induction l, r using sorted_slices_intersect.induct cmp with
  | case1 r => cases r <;> simp [sorted_slices_intersect]
  | case2 => simp [sorted_slices_intersect]
  | case3 a l b r hab ih =>
    have hs := h a b
    rw [hab] at hs
    have hba : cmp b a = .gt := swap_eq_lt.mp hs.symm
    simp only [sorted_slices_intersect, hab, hba]
    exact ih
  | case4 a l b r hab ih =>
    have hs := h a b
    rw [hab] at hs
    have hba : cmp b a = .lt := swap_eq_gt.mp hs.symm
    simp only [sorted_slices_intersect, hab, hba]
    exact ih
  | case5 a l b r hab =>
    have hs := h a b
    rw [hab] at hs
    have hba : cmp b a = .eq := swap_eq_eq.mp hs.symm
    simp only [sorted_slices_intersect, hab, hba]

theorem sorted_slices_intersect_self_cons {cmp : α → α → Ordering}
    (h : ∀ x, cmp x x = .eq) (a : α) (l : List α) :
    sorted_slices_intersect cmp (a :: l) (a :: l) = true := by
  simp only [sorted_slices_intersect, h a]

/-- C5.  `overlaps_with` is symmetric: whenever both directions succeed they
return the same boolean.  Reflexivity however only holds for plugins whose
record ids are a non-empty `Resolved` or `NamespacedIds` list: with
`record_ids = None` or an empty list, `a.overlaps_with(a)` returns
`Ok(false)` (and with `FormIds` it errors), so the claim's unconditional
`a.overlaps_with(a) = Ok(true)` is corrected to require a non-empty
resolved (or namespaced) list. -/
theorem overlaps_with_symm_refl :
    (∀ (a b : Plugin) (x y : Bool),
      a.overlaps_with b = .ok x → b.overlaps_with a = .ok y → x = y) ∧
    (∀ (a : Plugin) (l : List ResolvedRecordId),
      a.data.record_ids = .Resolved l → l ≠ [] →
      a.overlaps_with a = .ok true) ∧
    (∀ (a : Plugin) (l : List NamespacedId),
      a.data.record_ids = .NamespacedIds l → l ≠ [] →
      a.overlaps_with a = .ok true) := by
  refine ⟨?_, ?_, ?_⟩
  · intro a b x y hab hba
    cases ha : a.data.record_ids <;> cases hb : b.data.record_ids <;>
        simp only [Plugin.overlaps_with, ha, hb] at hab hba <;>
      try cases hab
    all_goals try cases hba
    all_goals first
      | rfl
      | exact sorted_slices_intersect_swap nsCmp_swap _ _
      | exact sorted_slices_intersect_swap rridCmp_swap _ _
  · intro a l ha hl
    cases l with
    | nil => exact absurd rfl hl
    | cons x l' =>
      simp only [Plugin.overlaps_with, ha]
      rw [sorted_slices_intersect_self_cons rridCmp_self]
  · intro a l ha hl
    cases l with
    | nil => exact absurd rfl hl
    | cons x l' =>
      simp only [Plugin.overlaps_with, ha]
      rw [sorted_slices_intersect_self_cons nsCmp_self]

/-- Concrete plugin with a single resolved record id, used to witness C5. -/
def c5Plugin : Plugin :=
  { game_id := .SkyrimSE, path := "Blank.esm",
    data := { header_record := Record.default,
              record_ids := .Resolved [.formId "blank.esm" 1 false] } }

/-- C5 witness: reflexivity at a plugin with a non-empty resolved list. -/
theorem overlaps_with_symm_refl_witness :
    c5Plugin.overlaps_with c5Plugin = .ok true :=
  overlaps_with_symm_refl.2.1 c5Plugin [.formId "blank.esm" 1 false] rfl
    (by decide)

/-- C5 counterexample: a freshly constructed plugin (record ids `None`)
refutes the claimed unconditional reflexivity — `overlaps_with` on itself
returns `Ok(false)`, not `Ok(true)`. -/
theorem overlaps_with_refl_cex :
    ¬ ((Plugin.new .SkyrimSE "Blank.esm").overlaps_with
        (Plugin.new .SkyrimSE "Blank.esm") = .ok true) := by
  decide

/-! ## Claim C3: resolve_record_ids is idempotent -/

/-- C3.  `resolve_record_ids` is idempotent: if a call succeeds, calling it
again on the result with the same metadata succeeds and returns the result
unchanged (so the second call produces an equal, equally-ordered `Resolved`
list); and on a plugin whose record ids are already `None` or `Resolved` the
call changes nothing. -/
theorem resolve_record_ids_idempotent (p : Plugin) (md : List PluginMetadata)
    (p' : Plugin) (hres : p.resolve_record_ids md = .ok p') :
    p'.resolve_record_ids md = .ok p' ∧
      ((p.data.record_ids = .None ∨ ∃ l, p.data.record_ids = .Resolved l) →
        p' = p) := by
  cases h : p.data.record_ids with
  | None =>
    simp only [Plugin.resolve_record_ids, h] at hres
    cases hres
    refine ⟨?_, fun _ => rfl⟩
    simp only [Plugin.resolve_record_ids, h]
  | Resolved l =>
    simp only [Plugin.resolve_record_ids, h] at hres
    cases hres
    refine ⟨?_, fun _ => rfl⟩
    simp only [Plugin.resolve_record_ids, h]
  | FormIds fids =>
    simp only [Plugin.resolve_record_ids, h] at hres
    split at hres
    · cases hres
    · split at hres
      · cases hres
      · split at hres
        · cases hres
        · cases hres
          refine ⟨?_, ?_⟩
          · simp only [Plugin.resolve_record_ids]
          · intro hor
            exfalso
            rcases hor with h0 | ⟨l, h0⟩ <;> simp [h] at h0
  | NamespacedIds nids =>
    simp only [Plugin.resolve_record_ids, h] at hres
    split at hres
    · cases hres
    · split at hres
      · cases hres
      · cases hres
        refine ⟨?_, ?_⟩
        · simp only [Plugin.resolve_record_ids]
        · intro hor
          exfalso
          rcases hor with h0 | ⟨l, h0⟩ <;> simp [h] at h0

/-- Header record with one master (`MAST` subrecord holding
`"Blank.esm\x00"`), used by the C3 witness. -/
def c3Header : Record :=
  { tag := [84, 69, 83, 52], flags := 1, form_id := 0,
    subrecords := [{ subrecord_type := [77, 65, 83, 84],
                     data := [66, 108, 97, 110, 107, 46, 101, 115, 109, 0] }] }

/-- Skyrim SE plugin with unresolved form ids, used by the C3 witness. -/
def c3Plugin : Plugin :=
  { game_id := .SkyrimSE, path := "dir/Dep.esp",
    data := { header_record := c3Header,
              record_ids := .FormIds [0x01000ABC, 0xCF0] } }

/-- Resolved form of `c3Plugin`: the id with mod index 0 is an override of
the single master, the other a new record of the plugin itself. -/
def c3PluginRes : Plugin :=
  { game_id := .SkyrimSE, path := "dir/Dep.esp",
    data := { header_record := c3Header,
              record_ids := .Resolved [.formId "blank.esm" 0xCF0 true,
                                       .formId "dep.esp" 0xABC false] } }

/-- C3 witness: a concrete successful resolution, with the second call
returning the same plugin. -/
theorem resolve_record_ids_idempotent_witness :
    c3Plugin.resolve_record_ids [] = .ok c3PluginRes ∧
      c3PluginRes.resolve_record_ids [] = .ok c3PluginRes :=
  ⟨by decide,
   (resolve_record_ids_idempotent c3Plugin [] c3PluginRes (by decide)).1⟩

/-! ## Claim C6: duplicated others do not change overlap_size -/

theorem scanOthers_replicate (id : ResolvedRecordId) (b : Plugin) (n : Nat) :
    scanOthers id (List.replicate (n + 1) b) = scanOthers id [b] := by
  induction n with
  | zero => rfl
  | succ n ih =>
    rw [List.replicate_succ]
    revert ih
    generalize List.replicate (n + 1) b = rep
    intro ih
    cases hb : b.data.record_ids with
    | FormIds l => simp only [scanOthers, hb]
    | Resolved l =>
      by_cases hs : binarySearch rridCmp l id = true
      · simp [scanOthers, hb, hs]
      · simp [scanOthers, hb, hs, ih]
    | None => simp [scanOthers, hb, ih]
    | NamespacedIds l => simp [scanOthers, hb, ih]

theorem overlapLoop_congr {o₁ o₂ : List Plugin}
    (h : ∀ id, scanOthers id o₁ = scanOthers id o₂) :
    ∀ (ids : List ResolvedRecordId) (c : Nat),
      overlapLoop o₁ ids c = overlapLoop o₂ ids c := by
  intro ids
  induction ids with
  | nil => intro c; rfl
  | cons id rest ih =>
    intro c
    simp only [overlapLoop, h id]
    cases hx : scanOthers id o₂ with
    | error e => rfl
    | ok bv => cases bv <;> simp only [ih]

theorem any_replicate (b : Plugin) (n : Nat) (f : Plugin → Bool) :
    (List.replicate (n + 1) b).any f = [b].any f := by
  induction n with
  | zero => rfl
  | succ n ih => rw [List.replicate_succ, List.any_cons, ih]; simp

/-- C6.  For every plugin `a`, plugin `b` and `n ≥ 1`,
`a.overlap_size([b; n]) = a.overlap_size([b])`: each of `a`'s ids
contributes at most once even when matched by several duplicated others. -/
theorem overlap_size_duplicate_others (a b : Plugin) (n : Nat) (hn : 1 ≤ n) :
    a.overlap_size (List.replicate n b) = a.overlap_size [b] := by
  obtain ⟨m, rfl⟩ : ∃ m, n = m + 1 := ⟨n - 1, by omega⟩
  cases h : a.data.record_ids with
  | FormIds l => simp only [Plugin.overlap_size, h]
  | None => simp only [Plugin.overlap_size, h]
  | Resolved ids =>
    simp only [Plugin.overlap_size, h]
    exact overlapLoop_congr (fun id => scanOthers_replicate id b m) ids 0
  | NamespacedIds ids =>
    simp only [Plugin.overlap_size, h]
    congr 1
    apply congrArg
    apply List.filter_congr
    intro id _
    exact any_replicate b m _

/-- Plugin with one resolved id, used by the C6 witness. -/
def c6PluginA : Plugin :=
  { game_id := .SkyrimSE, path := "A.esp",
    data := { header_record := Record.default,
              record_ids := .Resolved [.formId "a.esp" 3 false] } }

/-- Second plugin sharing the same resolved id, used by the C6 witness. -/
def c6PluginB : Plugin :=
  { game_id := .SkyrimSE, path := "B.esp",
    data := { header_record := Record.default,
              record_ids := .Resolved [.formId "a.esp" 3 true] } }

/-- C6 witness: three copies of the same other count like one. -/
theorem overlap_size_duplicate_others_witness :
    c6PluginA.overlap_size (List.replicate 3 c6PluginB) =
      c6PluginA.overlap_size [c6PluginB] ∧
      c6PluginA.overlap_size [c6PluginB] = .ok 1 :=
  ⟨overlap_size_duplicate_others c6PluginA c6PluginB 3 (by decide), by decide⟩

/-! ## Claim C4: overlap_size and unresolved others -/

/-- Test from `plugin.rs`'s `overlap_size` scan: does this plugin still hold
unresolved `FormIds`? -/
def isFormIdsPlugin (o : Plugin) : Bool :=
  match o.data.record_ids with
  | .FormIds _ => true
  | _ => false

theorem binarySearchGo_mem {cmp : α → α → Ordering} {xs : List α} {key : α} :
    ∀ {fuel left right : Nat},
      binarySearchGo cmp xs key fuel left right = true →
      ∃ x ∈ xs, cmp x key = .eq := by
  intro fuel
  induction fuel with
  | zero => intro left right h; cases h
  | succ fuel ih =>
    intro left right h
    rw [binarySearchGo] at h
    split at h
    · dsimp only at h
      rcases hx : xs.get? (left + (right - left) / 2) with _ | x <;>
          rw [hx] at h <;> dsimp only at h
      · cases h
      · rcases hc : cmp x key with _ | _ | _ <;> rw [hc] at h <;>
          dsimp only at h
        · exact ih h
        · exact ⟨x, List.get?_mem hx, hc⟩
        · exact ih h
    · cases h

theorem binarySearch_mem {cmp : α → α → Ordering} {xs : List α} {key : α}
    (h : binarySearch cmp xs key = true) : ∃ x ∈ xs, cmp x key = .eq :=
  binarySearchGo_mem h

theorem scanOthers_error_of_no_match (id : ResolvedRecordId)
    (others : List Plugin) (hfu : ∃ o ∈ others, isFormIdsPlugin o = true)
    (hnm : ∀ o ∈ others, ∀ rids, o.data.record_ids = .Resolved rids →
      ∀ x ∈ rids, rridCmp x id ≠ .eq) :
    ∃ q, others.find? isFormIdsPlugin = some q ∧
      scanOthers id others = .error (.UnresolvedRecordIds q.path) := by
  induction others with
  | nil => obtain ⟨o, ho, _⟩ := hfu; cases ho
  | cons o rest ih =>
    cases ho : o.data.record_ids with
    | FormIds l =>
      refine ⟨o, ?_, ?_⟩
      · rw [List.find?_cons_of_pos]
        simp [isFormIdsPlugin, ho]
      · simp only [scanOthers, ho]
    | Resolved rids =>
      have hbs : binarySearch rridCmp rids id = false := by
        by_contra hb
        rw [Bool.not_eq_false] at hb
        obtain ⟨x, hx, hcx⟩ := binarySearch_mem hb
        exact hnm o (by simp) rids ho x hx hcx
      have hniso : isFormIdsPlugin o = false := by simp [isFormIdsPlugin, ho]
      obtain ⟨q, hq, hscan⟩ := ih
        (by
          obtain ⟨o', ho', hf'⟩ := hfu
          rcases List.mem_cons.mp ho' with rfl | hmem
          · rw [hniso] at hf'; cases hf'
          · exact ⟨o', hmem, hf'⟩)
        (fun o' ho' => hnm o' (List.mem_cons_of_mem _ ho'))
      refine ⟨q, ?_, ?_⟩
      · rw [List.find?_cons_of_neg _ (by simp [hniso]), hq]
      · simp only [scanOthers, ho, hbs]
        simpa using hscan
    | None =>
      have hniso : isFormIdsPlugin o = false := by simp [isFormIdsPlugin, ho]
      obtain ⟨q, hq, hscan⟩ := ih
        (by
          obtain ⟨o', ho', hf'⟩ := hfu
          rcases List.mem_cons.mp ho' with rfl | hmem
          · rw [hniso] at hf'; cases hf'
          · exact ⟨o', hmem, hf'⟩)
        (fun o' ho' => hnm o' (List.mem_cons_of_mem _ ho'))
      exact ⟨q, by rw [List.find?_cons_of_neg _ (by simp [hniso]), hq],
        by simp only [scanOthers, ho]; exact hscan⟩
    | NamespacedIds l =>
      have hniso : isFormIdsPlugin o = false := by simp [isFormIdsPlugin, ho]
      obtain ⟨q, hq, hscan⟩ := ih
        (by
          obtain ⟨o', ho', hf'⟩ := hfu
          rcases List.mem_cons.mp ho' with rfl | hmem
          · rw [hniso] at hf'; cases hf'
          · exact ⟨o', hmem, hf'⟩)
        (fun o' ho' => hnm o' (List.mem_cons_of_mem _ ho'))
      exact ⟨q, by rw [List.find?_cons_of_neg _ (by simp [hniso]), hq],
        by simp only [scanOthers, ho]; exact hscan⟩

theorem scanOthers_error_eq (id : ResolvedRecordId) (others : List Plugin)
    (e : Error) (h : scanOthers id others = .error e) :
    ∃ q, others.find? isFormIdsPlugin = some q ∧
      e = .UnresolvedRecordIds q.path := by
  induction others with
  | nil => cases h
  | cons o rest ih =>
    cases ho : o.data.record_ids with
    | FormIds l =>
      simp only [scanOthers, ho] at h
      cases h
      exact ⟨o, by rw [List.find?_cons_of_pos]; simp [isFormIdsPlugin, ho], rfl⟩
    | Resolved rids =>
      simp only [scanOthers, ho] at h
      split at h
      · cases h
      · obtain ⟨q, hq, he⟩ := ih h
        exact ⟨q, by
          rw [List.find?_cons_of_neg _ (by simp [isFormIdsPlugin, ho]), hq],
          he⟩
    | None =>
      simp only [scanOthers, ho] at h
      obtain ⟨q, hq, he⟩ := ih h
      exact ⟨q, by
        rw [List.find?_cons_of_neg _ (by simp [isFormIdsPlugin, ho]), hq], he⟩
    | NamespacedIds l =>
      simp only [scanOthers, ho] at h
      obtain ⟨q, hq, he⟩ := ih h
      exact ⟨q, by
        rw [List.find?_cons_of_neg _ (by simp [isFormIdsPlugin, ho]), hq], he⟩

theorem overlapLoop_error (others : List Plugin) (e : Error) :
    ∀ (ids : List ResolvedRecordId) (c : Nat) (id : ResolvedRecordId),
      id ∈ ids → scanOthers id others = .error e →
      (∀ (id' : ResolvedRecordId) (e' : Error),
        scanOthers id' others = .error e' → e' = e) →
      overlapLoop others ids c = .error e := by
  intro ids
  induction ids with
  | nil => intro c id hid; cases hid
  | cons id0 rest ih =>
    intro c id hid he huniq
    cases hx : scanOthers id0 others with
    | error e0 =>
      simp only [overlapLoop, hx]
      rw [huniq id0 e0 hx]
    | ok bv =>
      have hid' : id ∈ rest := by
        rcases List.mem_cons.mp hid with rfl | hmem
        · rw [he] at hx; cases hx
        · exact hmem
      cases bv <;> simp only [overlapLoop, hx] <;>
        exact ih _ id hid' he huniq

/-- C4.  Corrected contract of `overlap_size` in the presence of unresolved
others: an `UnresolvedRecordIds` error is raised only while scanning ids, so
it is guaranteed only when this plugin's resolved list contains an id that no
`Resolved` other holds; the error then carries the path of the first
`FormIds` plugin in the list.  (If the resolved list is empty, or every id is
matched by a `Resolved` other that is scanned before the `FormIds` one, the
call succeeds instead — see the counterexample.) -/
theorem overlap_size_unresolved_error (p : Plugin) (others : List Plugin)
    (ids : List ResolvedRecordId) (hp : p.data.record_ids = .Resolved ids)
    (o : Plugin) (ho : o ∈ others) (hof : isFormIdsPlugin o = true)
    (id : ResolvedRecordId) (hid : id ∈ ids)
    (hnm : ∀ o' ∈ others, ∀ rids, o'.data.record_ids = .Resolved rids →
      ∀ x ∈ rids, rridCmp x id ≠ .eq) :
    ∃ q, others.find? isFormIdsPlugin = some q ∧
      p.overlap_size others = .error (.UnresolvedRecordIds q.path) := by
  obtain ⟨q, hq, hscan⟩ :=
    scanOthers_error_of_no_match id others ⟨o, ho, hof⟩ hnm
  refine ⟨q, hq, ?_⟩
  simp only [Plugin.overlap_size, hp]
  refine overlapLoop_error others _ ids 0 id hid hscan ?_
  intro id' e' h'
  obtain ⟨q', hq', he'⟩ := scanOthers_error_eq id' others e' h'
  rw [hq] at hq'
  cases hq'
  exact he'

/-- Plugin with one resolved id, used by C4. -/
def c4PluginA : Plugin :=
  { game_id := .SkyrimSE, path := "A.esp",
    data := { header_record := Record.default,
              record_ids := .Resolved [.formId "a.esp" 7 false] } }

/-- Resolved other containing the same id, used by the C4 counterexample. -/
def c4PluginB : Plugin :=
  { game_id := .SkyrimSE, path := "B.esp",
    data := { header_record := Record.default,
              record_ids := .Resolved [.formId "a.esp" 7 true] } }

/-- Other plugin still holding unresolved `FormIds`, used by C4. -/
def c4PluginC : Plugin :=
  { game_id := .Starfield, path := "C.esp",
    data := { header_record := Record.default,
              record_ids := .FormIds [5] } }

/-- C4 witness: with the unresolved plugin first in the list and an
unmatched id, `overlap_size` returns its path in the error. -/
theorem overlap_size_unresolved_error_witness :
    c4PluginA.overlap_size [c4PluginC] =
      .error (.UnresolvedRecordIds "C.esp") := by
  obtain ⟨q, hq, hres⟩ :=
    overlap_size_unresolved_error c4PluginA [c4PluginC]
      [.formId "a.esp" 7 false] rfl c4PluginC (by decide) (by decide)
      (.formId "a.esp" 7 false) (by decide)
      (by
        intro o' ho' rids hr x hx hcx
        rcases List.mem_cons.mp ho' with rfl | hmem
        · simp [c4PluginC] at hr
        · cases hmem)
  have hq' : some c4PluginC = some q := hq
  cases hq'
  exact hres

/-- C4 counterexample: the claim demands an error whenever some other holds
`FormIds`, but when every id of this plugin is matched by a `Resolved` other
scanned earlier, `overlap_size` succeeds with a count instead. -/
theorem overlap_size_unresolved_error_cex :
    c4PluginA.overlap_size [c4PluginB, c4PluginC] = .ok 1 ∧
      ¬ (c4PluginA.overlap_size [c4PluginB, c4PluginC] =
        .error (.UnresolvedRecordIds c4PluginC.path)) := by
  constructor <;> decide

/-! ## Claim C10: overlap_size over namespaced ids is total -/

/-- Test whether a plugin's record ids are Morrowind namespaced ids. -/
def isNamespacedPlugin (o : Plugin) : Bool :=
  match o.data.record_ids with
  | .NamespacedIds _ => true
  | _ => false

theorem any_filter_eq {g pred : Plugin → Bool}
    (hg : ∀ o, pred o = false → g o = false) :
    ∀ l : List Plugin, l.any g = (l.filter pred).any g := by
  intro l
  induction l with
  | nil => rfl
  | cons o rest ih =>
    cases hp : pred o
    · rw [List.any_cons, hg o hp, List.filter_cons_of_neg (by simp [hp]),
        ih, Bool.false_or]
    · rw [List.filter_cons_of_pos (by simp [hp]), List.any_cons,
        List.any_cons, ih]

/-- C10.  For a plugin whose record ids are `NamespacedIds`, `overlap_size`
never errors: it returns a count, and every other plugin whose record ids
are not `NamespacedIds` — including plugins still holding unresolved
`FormIds` — is treated as containing no matching ids, so the result is
unchanged when all such others are dropped from the list. -/
theorem overlap_size_namespaced_total (p : Plugin) (others : List Plugin)
    (ids : List NamespacedId) (hp : p.data.record_ids = .NamespacedIds ids) :
    (∃ n, p.overlap_size others = .ok n) ∧
      p.overlap_size others =
        p.overlap_size (others.filter isNamespacedPlugin) := by
  simp only [Plugin.overlap_size, hp]
  refine ⟨⟨_, rfl⟩, ?_⟩
  congr 1
  apply congrArg
  apply List.filter_congr
  intro id _
  apply any_filter_eq
  intro o ho
  cases hrec : o.data.record_ids <;>
    simp [isNamespacedPlugin, hrec] at ho ⊢

/-- Morrowind plugin with one namespaced id, used by the C10 witness. -/
def c10Plugin : Plugin :=
  { game_id := .Morrowind, path := "A.esm",
    data := { header_record := Record.default,
              record_ids := .NamespacedIds
                [{ record_tag := [78, 80, 67, 95], editor_id := "foo" }] } }

/-- Morrowind other sharing the same namespaced id, used by C10. -/
def c10Other : Plugin :=
  { game_id := .Morrowind, path := "B.esm",
    data := { header_record := Record.default,
              record_ids := .NamespacedIds
                [{ record_tag := [78, 80, 67, 95], editor_id := "foo" }] } }

/-- Starfield plugin with unresolved form ids, used by C10 as the other that
must be silently ignored. -/
def c10Unresolved : Plugin :=
  { game_id := .Starfield, path := "C.esm",
    data := { header_record := Record.default, record_ids := .FormIds [9] } }

/-- C10 witness: with an unresolved plugin in the list, `overlap_size` still
returns a count, equal to the count over the namespaced others alone. -/
theorem overlap_size_namespaced_total_witness :
    c10Plugin.overlap_size [c10Unresolved, c10Other] = .ok 1 ∧
      c10Plugin.overlap_size [c10Unresolved, c10Other] =
        c10Plugin.overlap_size [c10Other] :=
  ⟨by decide,
   (overlap_size_namespaced_total c10Plugin [c10Unresolved, c10Other] _
      rfl).2⟩

/-! ## Claim C8: the Starfield update flag and the .esl extension -/

/-- C8.  For a Starfield plugin whose file extension is `.esl`: with the
update flag (0x0200) clear the extension forces `is_light_plugin()` to true;
setting the update flag makes it false only provided the light flag (0x0100)
is itself clear — with the light flag set, `is_light_plugin()` stays true, so
the claim's unconditional "setting the update flag makes it false" is
corrected by the light-flag proviso. -/
theorem starfield_esl_update_light (p : Plugin) (hg : p.game_id = .Starfield)
    (he : p.file_extension = .Esl) :
    (p.data.header_record.flags &&& 0x100 = 0 →
      p.data.header_record.flags &&& 0x200 ≠ 0 → p.is_light_plugin = false) ∧
    (p.data.header_record.flags &&& 0x200 = 0 → p.is_light_plugin = true) := by
  constructor
  · intro h1 h2
    simp only [Plugin.is_light_plugin, Plugin.is_light_flag_set,
      Plugin.is_update_flag_set, hg, he]
    simp [GameId.supports_light_plugins, h1, h2]
  · intro h2
    simp only [Plugin.is_light_plugin, Plugin.is_light_flag_set,
      Plugin.is_update_flag_set, hg, he]
    simp [GameId.supports_light_plugins, h2]

/-- Starfield `.esl` plugin with the update flag set, used by C8. -/
def c8Update : Plugin :=
  { game_id := .Starfield, path := "Blank.esl",
    data := { header_record := { Record.default with flags := 0x200 },
              record_ids := .None } }

/-- Starfield `.esl` plugin with all flags clear, used by C8. -/
def c8Plain : Plugin :=
  { game_id := .Starfield, path := "Blank.esl",
    data := { header_record := Record.default, record_ids := .None } }

/-- Starfield `.esl` plugin with both the light and the update flags set,
used by the C8 counterexample. -/
def c8Both : Plugin :=
  { game_id := .Starfield, path := "Blank.esl",
    data := { header_record := { Record.default with flags := 0x300 },
              record_ids := .None } }

/-- C8 witness: update flag set (light clear) forces false; update clear
leaves the `.esl` extension forcing true. -/
theorem starfield_esl_update_light_witness :
    c8Update.is_light_plugin = false ∧ c8Plain.is_light_plugin = true :=
  ⟨(starfield_esl_update_light c8Update rfl (by decide)).1 (by decide)
      (by decide),
   (starfield_esl_update_light c8Plain rfl (by decide)).2 (by decide)⟩

/-- C8 counterexample: with the light flag also set, setting the update flag
does not make `is_light_plugin()` false. -/
theorem starfield_esl_update_light_cex :
    c8Both.is_update_flag_set = true ∧ c8Both.file_extension = .Esl ∧
      ¬ (c8Both.is_light_plugin = false) := by
  refine ⟨by decide, by decide, by decide⟩

/-! ## Claim C9: the .ghost extension is peeled exactly once -/

theorem revFindDot_elem_append (m : List Char) :
    ∀ (pre : List Char), '.' ∉ pre →
      revFindDot (pre ++ '.' :: m) = some (pre, m) := by
  intro pre
  induction pre with
  | nil => intro _; simp [revFindDot]
  | cons c rest ih =>
    intro hn
    have hc : ¬ (c = '.') := fun hh => hn (by rw [hh]; exact List.mem_cons_self _ _)
    simp only [List.cons_append, revFindDot, if_neg hc]
    have hih := ih (fun hm => hn (List.mem_cons_of_mem _ hm))
    rw [show rest.append ('.' :: m) = rest ++ '.' :: m from rfl, hih]
    rfl

theorem splitFileAtDot_last (c0 : Char) (mid last : List Char)
    (hc0 : c0 ≠ '.') (hlast : '.' ∉ last) :
    splitFileAtDot (c0 :: (mid ++ '.' :: last)) = (c0 :: mid, some last) := by
  have hne : c0 :: (mid ++ '.' :: last) ≠ ['.', '.'] := by
    intro hh
    exact hc0 (by injection hh)
  rw [splitFileAtDot, if_neg hne]
  have hrev : (mid ++ '.' :: last).reverse = last.reverse ++ '.' :: mid.reverse := by
    simp [List.reverse_append]
  rw [hrev, revFindDot_elem_append _ last.reverse (by simpa using hlast)]
  simp

theorem splitSlash_no_slash (l : List Char) (h : '/' ∉ l) :
    splitSlash l = [l] := by
  induction l with
  | nil => rfl
  | cons c rest ih =>
    have hc : ¬ (c = '/') := fun hh => h (by rw [hh]; exact List.mem_cons_self _ _)
    rw [splitSlash, if_neg hc, ih (fun hm => h (List.mem_cons_of_mem _ hm))]

theorem pathFileNameCh_single (c0 : Char) (cs : List Char)
    (hs : '/' ∉ c0 :: cs) (hc0 : c0 ≠ '.') :
    pathFileNameCh (c0 :: cs) = some (c0 :: cs) := by
  rw [pathFileNameCh, splitSlash_no_slash _ hs]
  have h1 : ¬ (c0 :: cs = [] ∧ True) := by simp
  have hdot : c0 :: cs ≠ ['.'] := by
    intro hh; exact hc0 (by injection hh)
  have hdd : c0 :: cs ≠ ['.', '.'] := by
    intro hh; exact hc0 (by injection hh)
  simp [List.filter, hdot, hdd]

theorem pathExtCh_last (c0 : Char) (mid last : List Char)
    (hs : '/' ∉ c0 :: (mid ++ '.' :: last)) (hc0 : c0 ≠ '.')
    (hlast : '.' ∉ last) :
    pathExtCh (c0 :: (mid ++ '.' :: last)) = some last := by
  rw [pathExtCh, pathFileNameCh_single c0 _ hs hc0]
  show (splitFileAtDot (c0 :: (mid ++ '.' :: last))).2 = some last
  rw [splitFileAtDot_last c0 mid last hc0 hlast]

theorem pathStemCh_last (c0 : Char) (mid last : List Char)
    (hs : '/' ∉ c0 :: (mid ++ '.' :: last)) (hc0 : c0 ≠ '.')
    (hlast : '.' ∉ last) :
    pathStemCh (c0 :: (mid ++ '.' :: last)) = some (c0 :: mid) := by
  rw [pathStemCh, pathFileNameCh_single c0 _ hs hc0]
  show some ((splitFileAtDot (c0 :: (mid ++ '.' :: last))).1) = some (c0 :: mid)
  rw [splitFileAtDot_last c0 mid last hc0 hlast]

theorem file_extension_ghost_peel (g : GameId) (d : PluginData) (c0 : Char)
    (mid : List Char) (hs : '/' ∉ c0 :: (mid ++ '.' :: "ghost".data))
    (hc0 : c0 ≠ '.') :
    Plugin.file_extension ⟨g, String.mk (c0 :: (mid ++ '.' :: "ghost".data)), d⟩ =
      match pathExtCh (c0 :: mid) with
      | none => .Unrecognised
      | some e2 => FileExtension.ofChars e2 := by
  unfold Plugin.file_extension
  show (match pathExtCh (c0 :: (mid ++ '.' :: "ghost".data)) with
    | none => FileExtension.Unrecognised
    | some e => _) = _
  rw [pathExtCh_last c0 mid _ hs hc0 (by decide)]
  have hg : FileExtension.ofChars "ghost".data = .Ghost := by decide
  show (match FileExtension.ofChars "ghost".data with
    | .Ghost => _
    | fe => fe) = _
  rw [hg]
  show (match pathStemCh (c0 :: (mid ++ '.' :: "ghost".data)) with
    | none => FileExtension.Unrecognised
    | some stem => match pathExtCh stem with
      | none => FileExtension.Unrecognised
      | some e2 => FileExtension.ofChars e2) = _
  rw [pathStemCh_last c0 mid _ hs hc0 (by decide)]

/-- C9.  The file-extension classifier peels exactly one trailing `.ghost`:
a name `base.esm.ghost` (or `base.esl.ghost`) is classified `Esm` (`Esl`),
observable through `is_master_file` and `is_light_plugin`; but the peeling
is not recursive — with two trailing `.ghost` suffixes the classification is
`Ghost`, not the extension before them, so the claim's "any number of
trailing `.ghost` suffixes" is corrected to exactly one. -/
theorem ghost_extension_single_peel (cs : List Char) (h0 : cs ≠ [])
    (hs : '/' ∉ cs) (hd : '.' ∉ cs) (g : GameId) (d : PluginData) :
    Plugin.file_extension ⟨g, String.mk (cs ++ ".esm.ghost".data), d⟩ = .Esm ∧
    Plugin.file_extension ⟨g, String.mk (cs ++ ".esl.ghost".data), d⟩ = .Esl ∧
    Plugin.file_extension
        ⟨g, String.mk (cs ++ ".esl.ghost.ghost".data), d⟩ = .Ghost ∧
    Plugin.is_master_file
        ⟨.SkyrimSE, String.mk (cs ++ ".esm.ghost".data), d⟩ = true ∧
    Plugin.is_light_plugin
        ⟨.SkyrimSE, String.mk (cs ++ ".esl.ghost".data), d⟩ = true := by
  obtain ⟨c0, cs', rfl⟩ : ∃ c0 cs', cs = c0 :: cs' := by
    cases cs with
    | nil => exact absurd rfl h0
    | cons a b => exact ⟨a, b, rfl⟩
  have hc0 : c0 ≠ '.' := fun hh => hd (hh ▸ List.mem_cons_self _ _)
  have hnoSlash : ∀ lit : List Char, '/' ∉ lit → '/' ∉ c0 :: (cs' ++ lit) := by
    intro lit hlit hmem
    rcases List.mem_cons.mp hmem with hh | hmem2
    · exact hs (hh ▸ List.mem_cons_self _ _)
    · rcases List.mem_append.mp hmem2 with h3 | h4
      · exact hs (List.mem_cons_of_mem _ h3)
      · exact hlit h4
  have hesm : (cs' ++ ".esm.ghost".data) =
      (cs' ++ ['.', 'e', 's', 'm']) ++ '.' :: "ghost".data := by
    rw [List.append_assoc]; rfl
  have hesl : (cs' ++ ".esl.ghost".data) =
      (cs' ++ ['.', 'e', 's', 'l']) ++ '.' :: "ghost".data := by
    rw [List.append_assoc]; rfl
  have hesl2 : (cs' ++ ".esl.ghost.ghost".data) =
      (cs' ++ ['.', 'e', 's', 'l', '.', 'g', 'h', 'o', 's', 't']) ++
        '.' :: "ghost".data := by
    rw [List.append_assoc]; rfl
  have hesmExt : ∀ g' : GameId, Plugin.file_extension
      ⟨g', String.mk (c0 :: (cs' ++ ".esm.ghost".data)), d⟩ = .Esm := by
    intro g'
    rw [hesm, file_extension_ghost_peel g' d c0 _
      (hesm ▸ hnoSlash ".esm.ghost".data (by decide)) hc0]
    have hinner : (cs' ++ ['.', 'e', 's', 'm']) = cs' ++ '.' :: "esm".data := rfl
    rw [hinner, pathExtCh_last c0 cs' _
      (by
        intro hmem
        rcases List.mem_cons.mp hmem with hh | hmem2
        · exact hs (hh ▸ List.mem_cons_self _ _)
        · rcases List.mem_append.mp hmem2 with h3 | h4
          · exact hs (List.mem_cons_of_mem _ h3)
          · exact absurd h4 (by decide))
      hc0 (by decide)]
    decide
  have heslExt : ∀ g' : GameId, Plugin.file_extension
      ⟨g', String.mk (c0 :: (cs' ++ ".esl.ghost".data)), d⟩ = .Esl := by
    intro g'
    rw [hesl, file_extension_ghost_peel g' d c0 _
      (hesl ▸ hnoSlash ".esl.ghost".data (by decide)) hc0]
    have hinner : (cs' ++ ['.', 'e', 's', 'l']) = cs' ++ '.' :: "esl".data := rfl
    rw [hinner, pathExtCh_last c0 cs' _
      (by
        intro hmem
        rcases List.mem_cons.mp hmem with hh | hmem2
        · exact hs (hh ▸ List.mem_cons_self _ _)
        · rcases List.mem_append.mp hmem2 with h3 | h4
          · exact hs (List.mem_cons_of_mem _ h3)
          · exact absurd h4 (by decide))
      hc0 (by decide)]
    decide
  have hghostExt : ∀ g' : GameId, Plugin.file_extension
      ⟨g', String.mk (c0 :: (cs' ++ ".esl.ghost.ghost".data)), d⟩ = .Ghost := by
    intro g'
    rw [hesl2, file_extension_ghost_peel g' d c0 _
      (hesl2 ▸ hnoSlash ".esl.ghost.ghost".data (by decide)) hc0]
    have hinner : (cs' ++ ['.', 'e', 's', 'l', '.', 'g', 'h', 'o', 's', 't']) =
        (cs' ++ ['.', 'e', 's', 'l']) ++ '.' :: "ghost".data := by
      rw [List.append_assoc]; rfl
    rw [hinner, pathExtCh_last c0 _ _
      (by
        intro hmem
        rcases List.mem_cons.mp hmem with hh | hmem2
        · exact hs (hh ▸ List.mem_cons_self _ _)
        · rcases List.mem_append.mp hmem2 with h3 | h4
          · rcases List.mem_append.mp h3 with h5 | h6
            · exact hs (List.mem_cons_of_mem _ h5)
            · exact absurd h6 (by decide)
          · exact absurd h4 (by decide))
      hc0 (by decide)]
    decide
  refine ⟨hesmExt g, heslExt g, hghostExt g, ?_, ?_⟩
  · simp only [Plugin.is_master_file]
    simp only [Bool.or_eq_true, decide_eq_true_eq]
    exact Or.inr (Or.inl (hesmExt GameId.SkyrimSE))
  · simp only [Plugin.is_light_plugin, GameId.supports_light_plugins]
    rw [if_pos trivial,
      if_neg (show ¬ (GameId.SkyrimSE = GameId.Starfield) by decide)]
    simp only [Bool.or_eq_true, decide_eq_true_eq]
    exact Or.inr (heslExt GameId.SkyrimSE)

/-- C9 witness: a concrete base name exercising the corrected claim. -/
theorem ghost_extension_single_peel_witness :
    Plugin.file_extension
        ⟨.SkyrimSE, String.mk ("Blank".data ++ ".esm.ghost".data),
          PluginData.default⟩ = .Esm ∧
      Plugin.is_light_plugin
        ⟨.SkyrimSE, String.mk ("Blank".data ++ ".esl.ghost".data),
          PluginData.default⟩ = true := by
  obtain ⟨h1, _, _, _, h5⟩ :=
    ghost_extension_single_peel "Blank".data (by decide) (by decide)
      (by decide) .SkyrimSE PluginData.default
  exact ⟨h1, h5⟩

/-- C9 counterexample: with two trailing `.ghost` suffixes after `.esl` the
plugin is not classified `Esl` — `is_light_plugin` stays false on a
Skyrim SE plugin with no flags, against the claimed recursive peeling. -/
theorem ghost_extension_single_peel_cex :
    Plugin.file_extension
        ⟨.SkyrimSE, "a.esl.ghost.ghost", PluginData.default⟩ = .Ghost ∧
      Plugin.is_light_plugin
        ⟨.SkyrimSE, "a.esl.ghost.ghost", PluginData.default⟩ = false := by
  exact ⟨by decide, by decide⟩

/-! ## Claim C1: the Starfield master mod-index layout -/

/-- Specification-side description of the Starfield master layout: three
parallel counters walk the master list in order, each master taking the
current value of its scale's counter as mod-index mask and the object-index
mask of its own scale, with increments 0x0100_0000 / 0x0001_0000 /
0x0000_1000.  This definition follows the spec's words and is compared with
`hashed_masters_for_starfield`, the embedding of the source. -/
def starfieldLayoutFrom (f md sm : Nat) :
    List (String × PluginScale) → List SourcePlugin
  | [] => []
  | (m, .Full) :: rest =>
    SourcePlugin.master m f ObjectIndexMask.Full ::
      starfieldLayoutFrom (f + 0x1000000) md sm rest
  | (m, .Medium) :: rest =>
    SourcePlugin.master m md ObjectIndexMask.Medium ::
      starfieldLayoutFrom f (md + 0x10000) sm rest
  | (m, .Small) :: rest =>
    SourcePlugin.master m sm ObjectIndexMask.Small ::
      starfieldLayoutFrom f md (sm + 0x1000) rest

theorem starfieldMastersGo_eq (metadata : List PluginMetadata)
    {ms : List String} {ss : List PluginScale}
    (h : List.Forall₂ (fun m s => lookupScale metadata m = some s) ms ss) :
    ∀ f md sm,
      f + 0x1000000 * ss.count PluginScale.Full < 4294967296 →
      md + 0x10000 * ss.count PluginScale.Medium < 4294967296 →
      sm + 0x1000 * ss.count PluginScale.Small < 4294967296 →
      starfieldMastersGo metadata ms f md sm =
        .ok (starfieldLayoutFrom f md sm (ms.zip ss)) := by
  induction h with
  | nil => intro f md sm _ _ _; rfl
  | cons hm hrest ih =>
    intro f md sm hbf hbm hbs
    rename_i m s ms' ss'
    cases s with
    | Full =>
      have hcf : (PluginScale.Full :: ss').count PluginScale.Full
          = ss'.count PluginScale.Full + 1 := by simp
      have hcm : (PluginScale.Full :: ss').count PluginScale.Medium
          = ss'.count PluginScale.Medium := by simp
      have hcs : (PluginScale.Full :: ss').count PluginScale.Small
          = ss'.count PluginScale.Small := by simp
      rw [hcf] at hbf
      rw [hcm] at hbm
      rw [hcs] at hbs
      have hmod : (f + 0x1000000) % 4294967296 = f + 0x1000000 :=
        Nat.mod_eq_of_lt (by omega)
      simp only [starfieldMastersGo, hm, hmod, List.zip_cons_cons,
        starfieldLayoutFrom,
        ih (f + 0x1000000) md sm (by omega) hbm hbs]
      rfl
    | Medium =>
      have hcf : (PluginScale.Medium :: ss').count PluginScale.Full
          = ss'.count PluginScale.Full := by simp
      have hcm : (PluginScale.Medium :: ss').count PluginScale.Medium
          = ss'.count PluginScale.Medium + 1 := by simp
      have hcs : (PluginScale.Medium :: ss').count PluginScale.Small
          = ss'.count PluginScale.Small := by simp
      rw [hcf] at hbf
      rw [hcm] at hbm
      rw [hcs] at hbs
      have hmod : (md + 0x10000) % 4294967296 = md + 0x10000 :=
        Nat.mod_eq_of_lt (by omega)
      simp only [starfieldMastersGo, hm, hmod, List.zip_cons_cons,
        starfieldLayoutFrom,
        ih f (md + 0x10000) sm hbf (by omega) hbs]
      rfl
    | Small =>
      have hcf : (PluginScale.Small :: ss').count PluginScale.Full
          = ss'.count PluginScale.Full := by simp
      have hcm : (PluginScale.Small :: ss').count PluginScale.Medium
          = ss'.count PluginScale.Medium := by simp
      have hcs : (PluginScale.Small :: ss').count PluginScale.Small
          = ss'.count PluginScale.Small + 1 := by simp
      rw [hcf] at hbf
      rw [hcm] at hbm
      rw [hcs] at hbs
      have hmod : (sm + 0x1000) % 4294967296 = sm + 0x1000 :=
        Nat.mod_eq_of_lt (by omega)
      simp only [starfieldMastersGo, hm, hmod, List.zip_cons_cons,
        starfieldLayoutFrom,
        ih f md (sm + 0x1000) hbf hbm (by omega)]
      rfl

/-- Metadata for the seven-master example of C1, with scales
Full, Medium, Small, Medium, Full, Small, Small. -/
def c1Metadata : List PluginMetadata :=
  [⟨"0", .Full, []⟩, ⟨"1", .Medium, []⟩, ⟨"2", .Small, []⟩, ⟨"3", .Medium, []⟩,
   ⟨"4", .Full, []⟩, ⟨"5", .Small, []⟩, ⟨"6", .Small, []⟩]

/-- Master list of the seven-master example of C1. -/
def c1Masters : List String := ["0", "1", "2", "3", "4", "5", "6"]

/-- C1.  Corrected Starfield master layout: when every master's metadata is
found with the given scales and the list stays below the `u32` overflow of
each counter — at most 255 full-scale, 767 medium-scale and 8191 small-scale
masters — `hashed_masters_for_starfield` produces exactly the spec-side
three-counter layout `starfieldLayoutFrom` (counters starting at
`full = 0`, `medium = 0xFD00_0000`, `small = 0xFE00_0000`, each master
taking the current counter of its scale as mod-index mask and the
object-index mask of its own scale); in particular the example list with
scales [Full, Medium, Small, Medium, Full, Small, Small] receives masks
[0, 0xFD00_0000, 0xFE00_0000, 0xFD01_0000, 0x0100_0000, 0xFE00_1000,
0xFE00_2000].  Beyond the bounds the source's `u32` counters wrap (release)
or panic (debug) and the unbounded-counter description fails — see the
counterexample. -/
theorem starfield_master_layout (metadata : List PluginMetadata)
    (ms : List String) (ss : List PluginScale)
    (h : List.Forall₂ (fun m s => lookupScale metadata m = some s) ms ss)
    (hf : ss.count PluginScale.Full ≤ 255)
    (hm : ss.count PluginScale.Medium ≤ 767)
    (hs : ss.count PluginScale.Small ≤ 8191) :
    hashed_masters_for_starfield ms metadata =
      .ok (starfieldLayoutFrom 0 0xFD000000 0xFE000000 (ms.zip ss)) ∧
    hashed_masters_for_starfield c1Masters c1Metadata =
      .ok [SourcePlugin.master "0" 0x00000000 .Full,
           SourcePlugin.master "1" 0xFD000000 .Medium,
           SourcePlugin.master "2" 0xFE000000 .Small,
           SourcePlugin.master "3" 0xFD010000 .Medium,
           SourcePlugin.master "4" 0x01000000 .Full,
           SourcePlugin.master "5" 0xFE001000 .Small,
           SourcePlugin.master "6" 0xFE002000 .Small] :=
  ⟨starfieldMastersGo_eq metadata h 0 0xFD000000 0xFE000000
      (by omega) (by omega) (by omega),
   by decide⟩

/-- Scales of the seven-master example of C1. -/
def c1Scales : List PluginScale :=
  [.Full, .Medium, .Small, .Medium, .Full, .Small, .Small]

/-- C1 witness: the general layout theorem instantiated at the seven-master
example produces the claimed masks. -/
theorem starfield_master_layout_witness :
    hashed_masters_for_starfield c1Masters c1Metadata =
      .ok [SourcePlugin.master "0" 0x00000000 .Full,
           SourcePlugin.master "1" 0xFD000000 .Medium,
           SourcePlugin.master "2" 0xFE000000 .Small,
           SourcePlugin.master "3" 0xFD010000 .Medium,
           SourcePlugin.master "4" 0x01000000 .Full,
           SourcePlugin.master "5" 0xFE001000 .Small,
           SourcePlugin.master "6" 0xFE002000 .Small] := by
  have h := (starfield_master_layout c1Metadata c1Masters c1Scales
    (by
      refine List.Forall₂.cons (by decide) ?_
      refine List.Forall₂.cons (by decide) ?_
      refine List.Forall₂.cons (by decide) ?_
      refine List.Forall₂.cons (by decide) ?_
      refine List.Forall₂.cons (by decide) ?_
      refine List.Forall₂.cons (by decide) ?_
      refine List.Forall₂.cons (by decide) ?_
      exact List.Forall₂.nil)
    (by decide) (by decide) (by decide)).1
  rw [h]
  decide

/-- Metadata with a single full-scale entry matched by every master of the
C1 counterexample list. -/
def c1CexMetadata : List PluginMetadata :=
  [{ filename := "a", scale := .Full, record_ids := [] }]

set_option maxRecDepth 8192 in
/-- C1 counterexample: with 257 full-scale masters, the claimed unbounded
counter layout predicts mask `0x1_0000_0000` for the 257th master, a value
no `u32` can hold, while the program's wrapping `u32` counter hands it mask
`0` — so the layout of the claim, as stated without bounds, is false of the
program. -/
theorem starfield_master_layout_cex :
    (hashed_masters_for_starfield (List.replicate 257 "a") c1CexMetadata ≠
      .ok (starfieldLayoutFrom 0 0xFD000000 0xFE000000
        ((List.replicate 257 "a").zip
          (List.replicate 257 PluginScale.Full)))) ∧
    Except.map (fun l => l.get? 256)
        (hashed_masters_for_starfield (List.replicate 257 "a")
          c1CexMetadata) =
      .ok (some (SourcePlugin.master "a" 0 ObjectIndexMask.Full)) ∧
    (starfieldLayoutFrom 0 0xFD000000 0xFE000000
        ((List.replicate 257 "a").zip
          (List.replicate 257 PluginScale.Full))).get? 256 =
      some (SourcePlugin.master "a" 0x100000000 ObjectIndexMask.Full) := by
  refine ⟨by decide, by decide, by decide⟩

/-! ## Claim C7: the non-Starfield master layout -/

theorem hashed_masters_enumFrom_none (ms : List String) : ∀ n, 256 ≤ n →
    (List.enumFrom n ms).filterMap (fun im =>
      if im.1 < 256 then
        some (SourcePlugin.master im.2 (im.1 <<< 24) ObjectIndexMask.Full)
      else none) = [] := by
  induction ms with
  | nil => intro n _; rfl
  | cons m rest ih =>
    intro n hn
    simp only [List.enumFrom, List.filterMap_cons]
    rw [if_neg (by omega)]
    exact ih (n + 1) (by omega)

theorem hashed_masters_enumFrom (ms : List String) : ∀ n, n ≤ 256 →
    (List.enumFrom n ms).filterMap (fun im =>
      if im.1 < 256 then
        some (SourcePlugin.master im.2 (im.1 <<< 24) ObjectIndexMask.Full)
      else none) =
    (List.enumFrom n (ms.take (256 - n))).map (fun im =>
      SourcePlugin.master im.2 (im.1 <<< 24) ObjectIndexMask.Full) := by
  induction ms with
  | nil => intro n _; simp
  | cons m rest ih =>
    intro n hn
    by_cases h : n < 256
    · have h256 : 256 - n = (256 - (n + 1)) + 1 := by omega
      rw [h256]
      simp only [List.take_succ_cons, List.enumFrom, List.filterMap_cons,
        List.map_cons]
      rw [if_pos h]
      rw [ih (n + 1) (by omega)]
    · have hn' : n = 256 := by omega
      subst hn'
      rw [hashed_masters_enumFrom_none (m :: rest) 256 (by omega)]
      simp

/-- C7.  For non-Starfield resolution, `hashed_masters` assigns the master
at 0-based position `i` the mod-index mask `i <<< 24` with the full
object-index mask, silently skipping every master at a position greater than
255 (the layout equals a map over the first 256 masters); and for every game
other than Starfield, `resolve_form_ids` never returns an error. -/
theorem nonstarfield_master_layout :
    (∀ ms : List String, hashed_masters ms =
      (List.enum (ms.take 256)).map (fun im =>
        SourcePlugin.master im.2 (im.1 <<< 24) ObjectIndexMask.Full)) ∧
    (∀ g : GameId, g ≠ .Starfield →
      ∀ (fids : List Nat) (pm : PluginMetadata) (ms : List String)
        (om : List PluginMetadata),
        ∃ out, resolve_form_ids g fids pm ms om = .ok out) := by
  constructor
  · intro ms
    have h := hashed_masters_enumFrom ms 0 (by omega)
    rw [Nat.sub_zero] at h
    exact h
  · intro g hg fids pm ms om
    cases g <;> first | exact absurd rfl hg | exact ⟨_, rfl⟩

/-- C7 witness: two masters receive masks 0 and `1 <<< 24`, and a concrete
non-Starfield resolution succeeds. -/
theorem nonstarfield_master_layout_witness :
    hashed_masters ["A.esm", "B.esm"] =
      [SourcePlugin.master "A.esm" 0 .Full,
       SourcePlugin.master "B.esm" 0x1000000 .Full] ∧
    ∃ out, resolve_form_ids .SkyrimSE [0x01000ABC]
      { filename := "Dep.esp", scale := .Full, record_ids := [] }
      ["A.esm"] [] = .ok out := by
  constructor
  · rw [nonstarfield_master_layout.1 ["A.esm", "B.esm"]]
    decide
  · exact nonstarfield_master_layout.2 .SkyrimSE (by decide) _ _ _ _

/-! ## Claim C2: the plugin state after a failed parse -/

theorem resolve_error_record_ids (p : Plugin) (md : List PluginMetadata)
    (e : Error) (h : p.resolve_record_ids md = .error e) :
    (∃ f, p.data.record_ids = .FormIds f) ∨
      (∃ n, p.data.record_ids = .NamespacedIds n) := by
  cases hr : p.data.record_ids with
  | None => simp [Plugin.resolve_record_ids, hr] at h
  | Resolved l => simp [Plugin.resolve_record_ids, hr] at h
  | FormIds f => exact Or.inl ⟨f, rfl⟩
  | NamespacedIds n => exact Or.inr ⟨n, rfl⟩

theorem read_plugin_record_ids (bytes : List Nat) (game : GameId)
    (opts : ParseOptions) (exp : List Nat) (d : PluginData)
    (hg : game ≠ .Morrowind)
    (h : read_plugin bytes game opts exp = .ok d) :
    d.record_ids = .None ∨ ∃ f, d.record_ids = .FormIds f := by
  unfold read_plugin at h
  rcases hr : Record.read game exp bytes with e | pr <;> rw [hr] at h
  · cases h
  · obtain ⟨hdr, rest⟩ := pr
    dsimp only at h
    split at h
    · cases h
      exact Or.inl rfl
    · rcases hri : read_record_ids rest game with e | rids <;> rw [hri] at h
      · cases h
      · cases h
        unfold read_record_ids at hri
        rw [if_neg hg] at hri
        rcases hfi : read_form_ids rest with e | fids <;> rw [hfi] at hri
        · cases hri
        · cases hri
          exact Or.inr ⟨fids, rfl⟩

/-- C2.  Corrected contract of `parse_reader` on failure: the data field is
not reset to its default — if the read step fails the plugin keeps whatever
data it held before the call (default only when it was already default), and
if reading succeeds but the automatic resolution step fails, the plugin
keeps the newly read data, whose record ids are still unresolved
`FormIds`. -/
theorem parse_reader_error_state (p : Plugin) (bytes : List Nat)
    (opts : ParseOptions) (e : Error)
    (h : (p.parse_reader bytes opts).2 = .error e) :
    (read_plugin bytes p.game_id opts (headerType p.game_id) = .error e ∧
      (p.parse_reader bytes opts).1 = p) ∨
    (∃ d, read_plugin bytes p.game_id opts (headerType p.game_id) = .ok d ∧
      (p.parse_reader bytes opts).1 = { p with data := d } ∧
      ∃ fids, d.record_ids = .FormIds fids) := by
  rcases hr : read_plugin bytes p.game_id opts (headerType p.game_id)
      with e' | d
  · left
    simp only [Plugin.parse_reader, hr] at h ⊢
    cases h
    exact ⟨by trivial, by trivial⟩
  · right
    simp only [Plugin.parse_reader, hr] at h ⊢
    refine ⟨d, by trivial, ?_⟩
    by_cases hgame :
        (p.game_id ≠ GameId.Morrowind ∧ p.game_id ≠ GameId.Starfield)
    · rw [if_pos hgame] at h ⊢
      rcases hres : Plugin.resolve_record_ids { p with data := d } []
          with e2 | p2 <;> rw [hres] at h <;> dsimp only at h ⊢
      · cases h
        refine ⟨by trivial, ?_⟩
        rcases resolve_error_record_ids _ _ _ hres with ⟨f, hf⟩ | ⟨n, hn⟩
        · exact ⟨f, hf⟩
        · exfalso
          rcases read_plugin_record_ids bytes p.game_id opts _ d
              hgame.1 hr with h0 | ⟨f, hf⟩
          · rw [show ({ p with data := d } : Plugin).data.record_ids =
              d.record_ids from rfl, h0] at hn
            cases hn
          · rw [show ({ p with data := d } : Plugin).data.record_ids =
              d.record_ids from rfl, hf] at hn
            cases hn
      · cases h
    · rw [if_neg hgame] at h ⊢
      cases h

/-- Byte stream holding a bare 24-byte `TES4` header record, used by C2. -/
def c2HeaderBytes : List Nat := [84, 69, 83, 52] ++ List.replicate 20 0

/-- Skyrim SE plugin state reached by successfully parsing `c2HeaderBytes`:
the header is set and the record ids are `Resolved []`, so its data is not
the default. -/
def c2Prior : Plugin :=
  { game_id := .SkyrimSE, path := "Blank.esm",
    data := { header_record := { tag := [84, 69, 83, 52], flags := 0,
                                 form_id := 0, subrecords := [] },
              record_ids := .Resolved [] } }

/-- C2 witness: a failing parse on a previously parsed plugin keeps its data
unchanged, witnessing the read-failure branch of the corrected claim. -/
theorem parse_reader_error_state_witness :
    (Plugin.parse_reader c2Prior [] .wholePlugin).2 =
      .error (.ParsingError [] .UnexpectedEndOfStream) ∧
    ((read_plugin [] c2Prior.game_id .wholePlugin
        (headerType c2Prior.game_id) =
          .error (.ParsingError [] .UnexpectedEndOfStream) ∧
      (Plugin.parse_reader c2Prior [] .wholePlugin).1 = c2Prior) ∨
    (∃ d, read_plugin [] c2Prior.game_id .wholePlugin
        (headerType c2Prior.game_id) = .ok d ∧
      (Plugin.parse_reader c2Prior [] .wholePlugin).1 =
        { c2Prior with data := d } ∧
      ∃ fids, d.record_ids = .FormIds fids)) :=
  ⟨by decide,
   parse_reader_error_state c2Prior [] .wholePlugin
     (.ParsingError [] .UnexpectedEndOfStream) (by decide)⟩

/-- C2 counterexample: after a successful parse, a second `parse_reader`
call on an empty reader fails, yet the plugin's data field is the previously
parsed data, not the default state the claim demands. -/
theorem parse_reader_error_state_cex :
    Plugin.parse_reader (Plugin.new .SkyrimSE "Blank.esm") c2HeaderBytes
        .wholePlugin = (c2Prior, .ok ()) ∧
    (Plugin.parse_reader c2Prior [] .wholePlugin).2 =
      .error (.ParsingError [] .UnexpectedEndOfStream) ∧
    (Plugin.parse_reader c2Prior [] .wholePlugin).1.data ≠
      PluginData.default := by
  refine ⟨by decide, by decide, by decide⟩

end Esplugin
